import Mathlib

set_option maxHeartbeats 1000000

/-
  Shallow embedding of the simulation core of festival-tycoon-lite
  (src/game/types.ts, src/game/constants.ts, src/game/sim.ts,
  src/game/milestones.ts and the tick body of src/App.tsx).

  Modelling conventions:
  * JS numbers are embedded as ℤ where the source only ever holds integers
    (power draws, loads, vibe/noise accumulators after Math.round) and as ℚ
    where fractional arithmetic occurs (local vibe/noise before rounding,
    fuel, wire lengths, time-of-day minutes).
  * Math.round is embedded as jsRound q = ⌊q + 1/2⌋, which is exactly the
    JS semantics (round half toward +∞) on the rationals that occur here.
  * Math.hypot(ax-bx, ay-by) ≤ r is embedded as the exact equivalent
    (ax-bx)² + (ay-by)² ≤ r² (both sides nonnegative, squaring is monotone).
  * A JS Record<string, number> is embedded as an association list with
    in-place update (recSet) and first-match lookup (recGet); keys are
    unique by construction of recSet, matching JS object semantics.
  * The boolean[][]/number[][] grids are embedded as List (List _) with
    functional update; all writes performed by the embedded code happen at
    in-bounds coordinates of placed items (the data model guarantees grid
    coordinates are within bounds).
-/

namespace FestivalTycoon

/-- Item kinds of the static catalog (src/game/types.ts, ItemKey). -/
inductive ItemKey where
  | speaker_s
  | speaker_l
  | deck
  | light
  | tent
  | genny
deriving DecidableEq, Repr, Fintype

/-- Static item definition (src/game/types.ts, ItemDef). -/
structure ItemDef where
  key : ItemKey
  name : String
  cost : ℤ
  baseVibe : ℚ
  noise : ℚ
  power : ℤ
  range : Option ℤ
  coneDeg : Option ℤ
deriving DecidableEq, Repr

/-- A placed item (src/game/types.ts, PlacedItem). -/
structure PlacedItem where
  id : String
  defKey : ItemKey
  x : ℤ
  y : ℤ
  rot : ℤ
  onFlag : Option Bool
  fuel : Option ℚ
deriving DecidableEq, Repr

/-- A wire (src/game/types.ts, Wire). -/
structure Wire where
  id : String
  fromGenId : String
  toItemId : String
  length : ℚ
deriving DecidableEq, Repr

/-- Aggregate score (src/game/types.ts, Score). -/
structure Score where
  vibe : ℤ
  noise : ℤ
deriving DecidableEq, Repr

/-- Grid width constant (src/game/constants.ts). -/
def GRID_W : ℕ := 20

/-- Grid height constant (src/game/constants.ts). -/
def GRID_H : ℕ := 12

/-- Generator capacity constant (src/game/constants.ts). -/
def GEN_CAPACITY : ℤ := 6

/-- Base fuel drain constant, percent per second (src/game/constants.ts). -/
def GEN_BASE_FUEL_DRAIN : ℚ := 0.4

/-- Per-power-unit fuel drain constant (src/game/constants.ts). -/
def GEN_FUEL_PER_POWER : ℚ := 0.8

/-- The static item catalog (src/game/constants.ts, ITEM_DEFS). -/
def ITEM_DEFS : ItemKey → ItemDef
  | ItemKey.speaker_s =>
      { key := ItemKey.speaker_s, name := "Small Speaker", cost := 50,
        baseVibe := 6, noise := 2, power := 1, range := some 3, coneDeg := some 90 }
  | ItemKey.speaker_l =>
      { key := ItemKey.speaker_l, name := "Large Speaker", cost := 120,
        baseVibe := 12, noise := 4, power := 2, range := some 3, coneDeg := some 120 }
  | ItemKey.deck =>
      { key := ItemKey.deck, name := "DJ Deck", cost := 150,
        baseVibe := 10, noise := 1, power := 1, range := some 3, coneDeg := none }
  | ItemKey.light =>
      { key := ItemKey.light, name := "Light Tree", cost := 80,
        baseVibe := 5, noise := 0, power := 1, range := some 2, coneDeg := none }
  | ItemKey.tent =>
      { key := ItemKey.tent, name := "Chill Tent", cost := 60,
        baseVibe := 4, noise := 0, power := 0, range := some 2, coneDeg := none }
  | ItemKey.genny =>
      { key := ItemKey.genny, name := "Generator", cost := 100,
        baseVibe := 0, noise := 3, power := 0, range := some 4, coneDeg := none }

/-- JS Math.round on the rationals occurring in the source: round half up. -/
def jsRound (q : ℚ) : ℤ := ⌊q + 1/2⌋

/-- Truthiness of the optional on flag (JS i.on as a boolean test; the source
field is named on, a Lean keyword, hence onFlag here). -/
def isOn (i : PlacedItem) : Bool := i.onFlag.getD false

/-- Fuel with JS default (i.fuel ?? 0). -/
def fuelOf (i : PlacedItem) : ℚ := i.fuel.getD 0

/-- Element of a 2D list with default. -/
def get2d (m : List (List α)) (y x : ℕ) (d : α) : α := (m.getD y []).getD x d

/-- Functional update of a 2D list (no-op out of range, mirroring the fact
that the embedded code only writes at in-bounds placed-item coordinates). -/
def set2d (m : List (List α)) (y x : ℕ) (v : α) : List (List α) :=
  m.set y ((m.getD y []).set x v)

/-- Read of powerMap with JS optional chaining (pm[y]?.[x] ?? false). -/
def getTile (pm : List (List Bool)) (y x : ℤ) : Bool :=
  if 0 ≤ y ∧ 0 ≤ x then get2d pm y.toNat x.toNat false else false

/-- Write powerMap[y][x] = true. -/
def setTile (pm : List (List Bool)) (y x : ℤ) : List (List Bool) :=
  if 0 ≤ y ∧ 0 ≤ x then set2d pm y.toNat x.toNat true else pm

/-- Lookup in a Record<string, number> (first match; keys are unique). -/
def recGet (m : List (String × ℤ)) (k : String) : Option ℤ :=
  match m with
  | [] => none
  | (k1, v1) :: rest => if k1 = k then some v1 else recGet rest k

/-- In-place update / append of a Record<string, number> entry. -/
def recSet (m : List (String × ℤ)) (k : String) (v : ℤ) : List (String × ℤ) :=
  match m with
  | [] => [(k, v)]
  | (k1, v1) :: rest => if k1 = k then (k, v) :: rest else (k1, v1) :: recSet rest k v

/-- The PowerResult of the allocator: boolean powered grid plus
generator-id to supplied-load record (src/game/sim.ts). -/
structure PowerResult where
  powerMap : List (List Bool)
  genLoads : List (String × ℤ)
deriving DecidableEq, Repr

/-- JS new Map(items.map(i => [i.id, i])).get(iid): last item with the id wins. -/
def itemById (items : List PlacedItem) (iid : String) : Option PlacedItem :=
  items.foldl (fun acc i => if i.id = iid then some i else acc) none

/-- Generators that are running: defKey genny, on, and (fuel ?? 0) > 0. -/
def runningGens (items : List PlacedItem) : List PlacedItem :=
  items.filter (fun i => i.defKey == ItemKey.genny && isOn i && decide (0 < fuelOf i))

/-- Wires of one generator joined with their consumer items, dangling wires
dropped (the map/filter pipeline of computePowerFromWires). -/
def linksRaw (items : List PlacedItem) (wires : List Wire) (gid : String) :
    List (Wire × PlacedItem) :=
  (wires.filter (fun w => w.fromGenId == gid)).filterMap
    (fun w => (itemById items w.toItemId).map (fun it => (w, it)))

/-- Stable insertion of a link into a length-sorted link list. -/
def insLink (l : Wire × PlacedItem) :
    List (Wire × PlacedItem) → List (Wire × PlacedItem)
  | [] => [l]
  | m :: rest =>
      if l.1.length ≤ m.1.length then l :: m :: rest else m :: insLink l rest

/-- Stable sort of links ascending by stored wire length (JS stable
Array.prototype.sort with comparator a.w.length - b.w.length). -/
def sortLinks : List (Wire × PlacedItem) → List (Wire × PlacedItem)
  | [] => []
  | l :: rest => insLink l (sortLinks rest)

/-- The candidate links considered for one generator, in processing order. -/
def linksFor (items : List PlacedItem) (wires : List Wire) (gid : String) :
    List (Wire × PlacedItem) :=
  sortLinks (linksRaw items wires gid)

/-- The inner allocation loop of computePowerFromWires for one generator:
walks the sorted links, skipping zero-draw consumers and consumers whose
draw exceeds the remaining capacity, otherwise marking the consumer tile
powered and adding the draw to the generator entry of genLoads. -/
def runLinks (gid : String) :
    List (Wire × PlacedItem) → ℤ → List (List Bool) → List (String × ℤ) →
    List (List Bool) × List (String × ℤ)
  | [], _, pm, gl => (pm, gl)
  | (_, c) :: rest, capLeft, pm, gl =>
      let draw := (ITEM_DEFS c.defKey).power
      if draw ≤ 0 then runLinks gid rest capLeft pm gl
      else if capLeft < draw then runLinks gid rest capLeft pm gl
      else runLinks gid rest (capLeft - draw) (setTile pm c.y c.x)
             (recSet gl gid ((recGet gl gid).getD 0 + draw))

/-- The wire-based power allocator (src/game/sim.ts, computePowerFromWires). -/
def computePowerFromWires (items : List PlacedItem) (wires : List Wire) :
    PowerResult :=
  let st := (runningGens items).foldl
    (fun st g =>
      runLinks g.id (linksFor items wires g.id) GEN_CAPACITY st.1
        (recSet st.2 g.id 0))
    (List.replicate GRID_H (List.replicate GRID_W false), ([] : List (String × ℤ)))
  { powerMap := st.1, genLoads := st.2 }

/-- Closed form of the inner loop: the list of consumers a generator
allocates, given a remaining capacity and its sorted links. -/
def genAlloc (cap : ℤ) : List (Wire × PlacedItem) → List PlacedItem
  | [] => []
  | (_, c) :: rest =>
      let draw := (ITEM_DEFS c.defKey).power
      if draw ≤ 0 then genAlloc cap rest
      else if cap < draw then genAlloc cap rest
      else c :: genAlloc (cap - draw) rest

/-- The consumers allocated to (any running generator with) a given id. -/
def allocFor (items : List PlacedItem) (wires : List Wire) (gid : String) :
    List PlacedItem :=
  genAlloc GEN_CAPACITY (linksFor items wires gid)

/-- Total power draw of a consumer list. -/
def drawSum (cs : List PlacedItem) : ℤ :=
  (cs.map (fun c => (ITEM_DEFS c.defKey).power)).sum

/-- Same allocation loop on bare draws, used to state the capacity scenario. -/
def allocDraws (cap : ℤ) : List ℤ → List ℤ
  | [] => []
  | d :: rest =>
      if d ≤ 0 then allocDraws cap rest
      else if cap < d then allocDraws cap rest
      else d :: allocDraws (cap - d) rest

/-- Exact embedding of the comparison dist2(a.x,a.y,b.x,b.y) ≤ r used by the
score engine: both sides are nonnegative, so the Euclidean comparison is
equivalent to comparing squared distances. -/
def withinR (a b : PlacedItem) (r : ℤ) : Bool :=
  decide ((a.x - b.x) ^ 2 + (a.y - b.y) ^ 2 ≤ r ^ 2)

/-- Local noise of one item before the per-item floor and round: base noise,
plus the idle-hum penalty of 1 when the item draws power and is unpowered
(src/game/sim.ts, scoreAll loop body). -/
def itemNoiseQ (pm : List (List Bool)) (it : PlacedItem) : ℚ :=
  let def0 := ITEM_DEFS it.defKey
  if 0 < def0.power ∧ getTile pm it.y it.x = false then def0.noise + 1 else def0.noise

/-- Per-item noise contribution: floored at zero and rounded. -/
def itemNoise (pm : List (List Bool)) (it : PlacedItem) : ℤ :=
  max 0 (jsRound (itemNoiseQ pm it))

/-- Local vibe of one item before rounding (src/game/sim.ts, scoreAll loop
body): base vibe, zeroed when the item draws power and is unpowered, then
the item-kind-specific adjustments in source order. -/
def itemVibeQ (items : List PlacedItem) (pm : List (List Bool)) (it : PlacedItem) : ℚ :=
  let def0 := ITEM_DEFS it.defKey
  let decks := items.filter (fun i => i.defKey == ItemKey.deck)
  let speakers := items.filter
    (fun i => i.defKey == ItemKey.speaker_s || i.defKey == ItemKey.speaker_l)
  let tents := items.filter (fun i => i.defKey == ItemKey.tent)
  let lights := items.filter (fun i => i.defKey == ItemKey.light)
  let lv0 : ℚ :=
    if 0 < def0.power ∧ getTile pm it.y it.x = false then 0 else def0.baseVibe
  let lv1 : ℚ :=
    if it.defKey == ItemKey.speaker_s || it.defKey == ItemKey.speaker_l then
      let a1 := if decks.any (fun d => withinR d it 3)
                then lv0 + (jsRound (def0.baseVibe * 0.5) : ℚ) else lv0
      let a2 := if speakers.any (fun s => !(s.id == it.id) && withinR s it 2)
                then a1 - 4 else a1
      if it.defKey == ItemKey.speaker_l
      then a2 - ((tents.filter (fun t => withinR t it 2)).length : ℚ) * 0.5
      else a2
    else lv0
  if it.defKey == ItemKey.tent then
    let t1 := if lights.any (fun l => withinR l it 2) then lv1 + 3 else lv1
    if speakers.any (fun s => s.defKey == ItemKey.speaker_l && withinR s it 2)
    then t1 - 1.5 else t1
  else lv1

/-- The score engine (src/game/sim.ts, scoreAll): per-item rounded vibe and
floored rounded noise are accumulated, then the noise soft-cap is applied
and the final vibe floored at zero.  The accumulators are integers because
the source adds only Math.round results, so the final Math.round is the
identity. -/
def scoreAll (items : List PlacedItem) (pm : List (List Bool)) : Score :=
  let acc := items.foldl
    (fun (acc : ℤ × ℤ) it =>
      (acc.1 + jsRound (itemVibeQ items pm it), acc.2 + itemNoise pm it)) (0, 0)
  let vibe := if 12 < acc.2 then acc.1 - jsRound (((acc.2 : ℚ) - 12) * 1.5) else acc.1
  { vibe := max 0 vibe, noise := acc.2 }

/-- Sum of the per-item rounded vibe contributions of scoreAll. -/
def vibeSum (items : List PlacedItem) (pm : List (List Bool)) : ℤ :=
  (items.map (fun it => jsRound (itemVibeQ items pm it))).sum

/-- Sum of the per-item floored rounded noise contributions of scoreAll. -/
def noiseSum (items : List PlacedItem) (pm : List (List Bool)) : ℤ :=
  (items.map (itemNoise pm)).sum

/-- Effective vibe strength of an item for the vibe field: baseVibe, forced
to zero when the item draws power and its tile is unpowered. -/
def strengthOf (pm : List (List Bool)) (it : PlacedItem) : ℚ :=
  if 0 < (ITEM_DEFS it.defKey).power ∧ getTile pm it.y it.x = false then 0
  else (ITEM_DEFS it.defKey).baseVibe

/-- Window half-width of an item: max(1, def.range ?? 2). -/
def windowR (it : PlacedItem) : ℤ :=
  max 1 ((ITEM_DEFS it.defKey).range.getD 2)

/-- The integer interval [lo, hi] as a list (empty when hi < lo), embedding
the for-loop bounds of computeVibeField. -/
def intRange (lo hi : ℤ) : List ℤ :=
  (List.range (hi + 1 - lo).toNat).map (fun k : ℕ => lo + (k : ℤ))

/-- Inverse-distance falloff of computeVibeField at tile (y, x) around an
item: 1 / (1 + max(0, hypot(x-it.x, y-it.y) - 0.25)). -/
noncomputable def falloffAt (it : PlacedItem) (y x : ℤ) : ℝ :=
  1 / (1 + max 0 (Real.sqrt ((((x - it.x) ^ 2 + (y - it.y) ^ 2 : ℤ) : ℝ)) - 0.25))

/-- Read field[y][x] (in-bounds by the loop structure of the source). -/
def getCell (f : List (List ℝ)) (y x : ℤ) : ℝ :=
  if 0 ≤ y ∧ 0 ≤ x then get2d f y.toNat x.toNat 0 else 0

/-- Write field[y][x] (in-bounds by the loop structure of the source). -/
def setCell (f : List (List ℝ)) (y x : ℤ) (v : ℝ) : List (List ℝ) :=
  if 0 ≤ y ∧ 0 ≤ x then set2d f y.toNat x.toNat v else f

/-- One item's contribution pass of computeVibeField: skip non-positive
strength, otherwise add strength * falloff over the clamped window. -/
noncomputable def spreadItem (pm : List (List Bool)) (f : List (List ℝ))
    (it : PlacedItem) : List (List ℝ) :=
  let s := strengthOf pm it
  if s ≤ 0 then f
  else
    let r := windowR it
    (intRange (max 0 (it.y - r - 2)) (min ((GRID_H : ℤ) - 1) (it.y + r + 2))).foldl
      (fun fy y =>
        (intRange (max 0 (it.x - r - 2)) (min ((GRID_W : ℤ) - 1) (it.x + r + 2))).foldl
          (fun fx x => setCell fx y x (getCell fx y x + (s : ℝ) * falloffAt it y x))
          fy)
      f

/-- The per-tile vibe field (src/game/sim.ts, computeVibeField). -/
noncomputable def computeVibeField (items : List PlacedItem)
    (pm : List (List Bool)) : List (List ℝ) :=
  items.foldl (spreadItem pm) (List.replicate GRID_H (List.replicate GRID_W (0 : ℝ)))

/-- Goal status (src/game/milestones.ts, GoalStatus). -/
inductive GoalStatus where
  | pending
  | completed
  | failed
deriving DecidableEq, Repr, BEq

/-- Snapshot passed to goal conditions (src/game/milestones.ts). -/
structure Snap where
  money : ℚ
  crowd : ℚ
  vibe : ℤ
  noise : ℤ
  built : List (String × ℕ)
  powered : List (String × ℕ)

/-- A goal (src/game/milestones.ts, Goal). -/
structure Goal where
  id : String
  title : String
  desc : Option String
  deadlineDay : ℤ
  deadlineMin : ℚ
  reward : ℤ
  status : GoalStatus
  condition : Snap → Bool

/-- Deadline comparison (src/game/milestones.ts, isPast): strictly past the
deadline means a later day, or the same day and a strictly later minute. -/
def isPast (day : ℤ) (dmin : ℚ) (nowDay : ℤ) (nowMin : ℚ) : Bool :=
  decide (nowDay > day) || (decide (nowDay = day) && decide (nowMin > dmin))

/-- One goal's update in the tick (src/App.tsx, the setGoals map body):
non-pending goals are returned unchanged; a pending goal completes when its
condition holds on the snapshot, else fails when the deadline is strictly
past, else stays pending. -/
def goalStep (snap : Snap) (nowDay : ℤ) (nowMin : ℚ) (g : Goal) : Goal :=
  if g.status ≠ GoalStatus.pending then g
  else if g.condition snap then { g with status := GoalStatus.completed }
  else if isPast g.deadlineDay g.deadlineMin nowDay nowMin then
    { g with status := GoalStatus.failed }
  else g

/-- The objective tracker pass of one tick: the updated goal list together
with the total money awarded (the sum of the setMoney side effects, one per
newly completed goal). -/
def updateGoals (goals : List Goal) (snap : Snap) (nowDay : ℤ) (nowMin : ℚ) :
    List Goal × ℤ :=
  (goals.map (goalStep snap nowDay nowMin),
   ((goals.filter (fun g => g.status == GoalStatus.pending && g.condition snap)).map
      Goal.reward).sum)

/-- One item's update in the fuel-drain step of the tick (src/App.tsx,
the setItems map body): non-generators and generators that are off are
returned unchanged; a running generator loses dt * (base + load * perPower)
fuel, floored at zero, and is switched off exactly when the new fuel is not
positive. -/
def fuelTick (loads : List (String × ℤ)) (dt : ℚ) (i : PlacedItem) : PlacedItem :=
  if i.defKey ≠ ItemKey.genny ∨ isOn i = false then i
  else
    let load : ℤ := (recGet loads i.id).getD 0
    let perSec : ℚ := GEN_BASE_FUEL_DRAIN + (load : ℚ) * GEN_FUEL_PER_POWER
    let newFuel : ℚ := max 0 (i.fuel.getD 100 - dt * perSec)
    { i with fuel := some newFuel, onFlag := some (decide (0 < newFuel)) }

/-- The fuel-drain step of the tick over the whole item list. -/
def fuelStep (items : List PlacedItem) (loads : List (String × ℤ)) (dt : ℚ) :
    List PlacedItem :=
  items.map (fuelTick loads dt)

/-- Folding setTile over a consumer list, the cumulative powerMap effect of
one generator's allocation. -/
def markTiles (pm : List (List Bool)) (cs : List PlacedItem) : List (List Bool) :=
  cs.foldl (fun m c => setTile m c.y c.x) pm

/-- Total of all loads recorded in a genLoads record. -/
def loadTotal (gl : List (String × ℤ)) : ℤ := (gl.map Prod.snd).sum

/-- Items whose tile is marked powered in a power map. -/
def poweredConsumers (items : List PlacedItem) (pm : List (List Bool)) :
    List PlacedItem :=
  items.filter (fun i => getTile pm i.y i.x)

/-- One generator's pass inside computePowerFromWires. -/
def powerStep (items : List PlacedItem) (wires : List Wire)
    (st : List (List Bool) × List (String × ℤ)) (g : PlacedItem) :
    List (List Bool) × List (String × ℤ) :=
  runLinks g.id (linksFor items wires g.id) GEN_CAPACITY st.1 (recSet st.2 g.id 0)

/-- Shape of a grid: GRID_H rows of GRID_W entries. -/
def Shaped (m : List (List α)) : Prop :=
  m.length = GRID_H ∧ ∀ row ∈ m, row.length = GRID_W
/-- Closed-form contribution of one item to one tile of the vibe field. -/
noncomputable def cellContrib (pm : List (List Bool)) (it : PlacedItem)
    (y x : ℤ) : ℝ :=
  let s := strengthOf pm it
  let r := windowR it
  if s ≤ 0 then 0
  else if max 0 (it.y - r - 2) ≤ y ∧ y ≤ min ((GRID_H : ℤ) - 1) (it.y + r + 2) ∧
          max 0 (it.x - r - 2) ≤ x ∧ x ≤ min ((GRID_W : ℤ) - 1) (it.x + r + 2)
  then ((s : ℚ) : ℝ) * falloffAt it y x
  else 0
/-- Concrete instance: a running generator. -/
def exGen1 : PlacedItem :=
  { id := "g1", defKey := ItemKey.genny, x := 0, y := 0, rot := 0,
    onFlag := some true, fuel := some 50 }

/-- Concrete instance: a second running generator. -/
def exGen2 : PlacedItem :=
  { id := "g2", defKey := ItemKey.genny, x := 1, y := 0, rot := 0,
    onFlag := some true, fuel := some 50 }

/-- Concrete instance: a small speaker consumer. -/
def exSpk : PlacedItem :=
  { id := "c1", defKey := ItemKey.speaker_s, x := 2, y := 0, rot := 0,
    onFlag := none, fuel := none }

/-- Concrete instance: two generators both wired to the same consumer. -/
def exItems : List PlacedItem := [exGen1, exGen2, exSpk]

/-- Concrete instance: the two wires of exItems. -/
def exWires : List Wire :=
  [ { id := "w1", fromGenId := "g1", toItemId := "c1", length := 2 },
    { id := "w2", fromGenId := "g2", toItemId := "c1", length := 1 } ]

/-- An all-false power map of grid shape. -/
def pmAllFalse : List (List Bool) :=
  List.replicate GRID_H (List.replicate GRID_W false)
/-- Items realizing a noise sum of exactly 20 in scoreAll. -/
def c6Items : List PlacedItem :=
  [ { id := "sl", defKey := ItemKey.speaker_l, x := 0, y := 0, rot := 0, onFlag := none, fuel := none },
    { id := "ss", defKey := ItemKey.speaker_s, x := 4, y := 0, rot := 0, onFlag := none, fuel := none },
    { id := "d1", defKey := ItemKey.deck, x := 8, y := 0, rot := 0, onFlag := none, fuel := none },
    { id := "d2", defKey := ItemKey.deck, x := 12, y := 0, rot := 0, onFlag := none, fuel := none },
    { id := "t1", defKey := ItemKey.tent, x := 16, y := 0, rot := 0, onFlag := none, fuel := none },
    { id := "G1", defKey := ItemKey.genny, x := 0, y := 6, rot := 0, onFlag := none, fuel := none },
    { id := "G2", defKey := ItemKey.genny, x := 4, y := 6, rot := 0, onFlag := none, fuel := none },
    { id := "G3", defKey := ItemKey.genny, x := 8, y := 6, rot := 0, onFlag := none, fuel := none },
    { id := "G4", defKey := ItemKey.genny, x := 12, y := 6, rot := 0, onFlag := none, fuel := none } ]

/-- A power map powering the four consumers of c6Items. -/
def c6Pm : List (List Bool) :=
  (List.range GRID_H).map (fun y => (List.range GRID_W).map
    (fun x => y == 0 && (x == 0 || x == 4 || x == 8 || x == 12)))
/-- Realizable analogue of the capacity scenario: one running generator
wired to three large speakers (draw 2 each) and one small speaker, wires
sorted ascending by length in that order. -/
def c7Items : List PlacedItem :=
  [ { id := "G", defKey := ItemKey.genny, x := 0, y := 6, rot := 0,
      onFlag := some true, fuel := some 50 },
    { id := "a1", defKey := ItemKey.speaker_l, x := 0, y := 0, rot := 0, onFlag := none, fuel := none },
    { id := "a2", defKey := ItemKey.speaker_l, x := 4, y := 0, rot := 0, onFlag := none, fuel := none },
    { id := "a3", defKey := ItemKey.speaker_l, x := 8, y := 0, rot := 0, onFlag := none, fuel := none },
    { id := "a4", defKey := ItemKey.speaker_s, x := 12, y := 0, rot := 0, onFlag := none, fuel := none } ]

/-- Wires of c7Items, lengths ascending. -/
def c7Wires : List Wire :=
  [ { id := "w1", fromGenId := "G", toItemId := "a1", length := 1 },
    { id := "w2", fromGenId := "G", toItemId := "a2", length := 2 },
    { id := "w3", fromGenId := "G", toItemId := "a3", length := 3 },
    { id := "w4", fromGenId := "G", toItemId := "a4", length := 4 } ]
/-- Concrete instance: an unpowered small speaker at the origin. -/
def c2Spk : PlacedItem :=
  { id := "s1", defKey := ItemKey.speaker_s, x := 0, y := 0, rot := 0,
    onFlag := none, fuel := none }

/-- Concrete instance: a deck three tiles from c2Spk. -/
def c2Deck : PlacedItem :=
  { id := "d1", defKey := ItemKey.deck, x := 3, y := 0, rot := 0,
    onFlag := none, fuel := none }

/-- The adjustment chain of the score loop applied to a zeroed base vibe:
what an unpowered power-drawing item still contributes before rounding. -/
def adjVibeZero (items : List PlacedItem) (it : PlacedItem) : ℚ :=
  let def0 := ITEM_DEFS it.defKey
  let decks := items.filter (fun i => i.defKey == ItemKey.deck)
  let speakers := items.filter
    (fun i => i.defKey == ItemKey.speaker_s || i.defKey == ItemKey.speaker_l)
  let tents := items.filter (fun i => i.defKey == ItemKey.tent)
  let lights := items.filter (fun i => i.defKey == ItemKey.light)
  let lv0 : ℚ := 0
  let lv1 : ℚ :=
    if it.defKey == ItemKey.speaker_s || it.defKey == ItemKey.speaker_l then
      let a1 := if decks.any (fun d => withinR d it 3)
                then lv0 + (jsRound (def0.baseVibe * 0.5) : ℚ) else lv0
      let a2 := if speakers.any (fun s => !(s.id == it.id) && withinR s it 2)
                then a1 - 4 else a1
      if it.defKey == ItemKey.speaker_l
      then a2 - ((tents.filter (fun t => withinR t it 2)).length : ℚ) * 0.5
      else a2
    else lv0
  if it.defKey == ItemKey.tent then
    let t1 := if lights.any (fun l => withinR l it 2) then lv1 + 3 else lv1
    if speakers.any (fun s => s.defKey == ItemKey.speaker_l && withinR s it 2)
    then t1 - 1.5 else t1
  else lv1

/-- Concrete instance: a goal whose condition always holds. -/
def c5Goal : Goal :=
  { id := "g1", title := "t", desc := none, deadlineDay := 1, deadlineMin := 1080,
    reward := 150, status := GoalStatus.pending, condition := fun _ => true }

/-- Concrete instance: an empty snapshot. -/
def c5Snap : Snap :=
  { money := 0, crowd := 0, vibe := 0, noise := 0, built := [], powered := [] }

/-- Concrete instance: a running generator with fuel 10 and load 2. -/
def c8Gen : PlacedItem :=
  { id := "G", defKey := ItemKey.genny, x := 0, y := 0, rot := 0,
    onFlag := some true, fuel := some 10 }

/-- Concrete instance: loads record attributing 2 units to c8Gen. -/
def c8Loads : List (String × ℤ) := [("G", 2)]

theorem computePowerFromWires_def (items : List PlacedItem) (wires : List Wire) :
    computePowerFromWires items wires =
      { powerMap := ((runningGens items).foldl (powerStep items wires)
          (List.replicate GRID_H (List.replicate GRID_W false), [])).1,
        genLoads := ((runningGens items).foldl (powerStep items wires)
          (List.replicate GRID_H (List.replicate GRID_W false), [])).2 } := rfl

theorem recGet_recSet_self (m : List (String × ℤ)) (k : String) (v : ℤ) :
    recGet (recSet m k v) k = some v := by
  induction m with
  | nil => simp [recSet, recGet]
  | cons hd tl ih =>
      obtain ⟨k1, v1⟩ := hd
      by_cases h : k1 = k
      · simp [recSet, recGet, h]
      · simp [recSet, recGet, h, ih]

theorem recGet_recSet_ne (m : List (String × ℤ)) (k1 k2 : String) (v : ℤ)
    (h : k1 ≠ k2) : recGet (recSet m k1 v) k2 = recGet m k2 := by
  induction m with
  | nil => simp [recSet, recGet, h]
  | cons hd tl ih =>
      obtain ⟨ka, va⟩ := hd
      by_cases ha : ka = k1
      · subst ha
        simp [recSet, recGet, h]
      · by_cases hb : ka = k2
        · simp [recSet, recGet, ha, hb, Ne.symm h]
        · simp [recSet, recGet, ha, hb, ih]

theorem recSet_recSet_self (m : List (String × ℤ)) (k : String) (v w : ℤ) :
    recSet (recSet m k v) k w = recSet m k w := by
  induction m with
  | nil => simp [recSet]
  | cons hd tl ih =>
      obtain ⟨ka, va⟩ := hd
      by_cases ha : ka = k
      · simp [recSet, ha]
      · simp [recSet, ha, ih]

theorem recSet_eq_of_recGet (m : List (String × ℤ)) (k : String) (v : ℤ)
    (h : recGet m k = some v) : recSet m k v = m := by
  induction m with
  | nil => simp [recGet] at h
  | cons hd tl ih =>
      obtain ⟨ka, va⟩ := hd
      by_cases ha : ka = k
      · subst ha
        simp [recGet] at h
        simp [recSet, h]
      · simp [recGet, ha] at h
        simp [recSet, ha, ih h]

theorem recSet_append_of_recGet_none (m : List (String × ℤ)) (k : String)
    (v : ℤ) (h : recGet m k = none) : recSet m k v = m ++ [(k, v)] := by
  induction m with
  | nil => simp [recSet]
  | cons hd tl ih =>
      obtain ⟨ka, va⟩ := hd
      by_cases ha : ka = k
      · simp [recGet, ha] at h
      · simp [recGet, ha] at h
        simp [recSet, ha, ih h]

/-- The inner loop of computePowerFromWires, characterized: it marks the
tiles of the allocated consumers and adds the allocated draw total to the
generator's genLoads entry. -/
theorem runLinks_spec (gid : String) (links : List (Wire × PlacedItem)) :
    ∀ (cap : ℤ) (pm : List (List Bool)) (gl : List (String × ℤ)) (v : ℤ),
      recGet gl gid = some v →
      runLinks gid links cap pm gl =
        (markTiles pm (genAlloc cap links),
         recSet gl gid (v + drawSum (genAlloc cap links))) := by
  induction links with
  | nil =>
      intro cap pm gl v h
      simp [runLinks, genAlloc, markTiles, drawSum, recSet_eq_of_recGet gl gid v h]
  | cons hd tl ih =>
      intro cap pm gl v h
      obtain ⟨w, c⟩ := hd
      by_cases h1 : (ITEM_DEFS c.defKey).power ≤ 0
      · simp only [runLinks, genAlloc, if_pos h1]
        exact ih cap pm gl v h
      · by_cases h2 : cap < (ITEM_DEFS c.defKey).power
        · simp only [runLinks, genAlloc, if_neg h1, if_pos h2]
          exact ih cap pm gl v h
        · simp only [runLinks, genAlloc, if_neg h1, if_neg h2]
          rw [ih (cap - (ITEM_DEFS c.defKey).power) (setTile pm c.y c.x)
              (recSet gl gid ((recGet gl gid).getD 0 + (ITEM_DEFS c.defKey).power))
              (v + (ITEM_DEFS c.defKey).power)
              (by rw [h]; simp [recGet_recSet_self])]
          rw [h]
          simp only [Option.getD_some, markTiles, List.foldl_cons, drawSum,
            List.map_cons, List.sum_cons, recSet_recSet_self]
          rw [add_assoc]

/-- Draws of allocated consumers are positive. -/
theorem genAlloc_pos (cap : ℤ) (links : List (Wire × PlacedItem)) :
    ∀ c ∈ genAlloc cap links, 0 < (ITEM_DEFS c.defKey).power := by
  induction links generalizing cap with
  | nil => intro c hc; simp [genAlloc] at hc
  | cons hd tl ih =>
      intro c hc
      obtain ⟨w, c1⟩ := hd
      by_cases h1 : (ITEM_DEFS c1.defKey).power ≤ 0
      · simp only [genAlloc, if_pos h1] at hc
        exact ih cap c hc
      · by_cases h2 : cap < (ITEM_DEFS c1.defKey).power
        · simp only [genAlloc, if_neg h1, if_pos h2] at hc
          exact ih cap c hc
        · simp only [genAlloc, if_neg h1, if_neg h2, List.mem_cons] at hc
          rcases hc with hc | hc
          · subst hc; omega
          · exact ih (cap - (ITEM_DEFS c1.defKey).power) c hc

/-- The allocated draw total never exceeds the starting capacity. -/
theorem drawSum_genAlloc_le (links : List (Wire × PlacedItem)) :
    ∀ cap : ℤ, 0 ≤ cap → drawSum (genAlloc cap links) ≤ cap := by
  induction links with
  | nil => intro cap h; simpa [genAlloc, drawSum] using h
  | cons hd tl ih =>
      intro cap h
      obtain ⟨w, c⟩ := hd
      by_cases h1 : (ITEM_DEFS c.defKey).power ≤ 0
      · simp only [genAlloc, if_pos h1]
        exact ih cap h
      · by_cases h2 : cap < (ITEM_DEFS c.defKey).power
        · simp only [genAlloc, if_neg h1, if_pos h2]
          exact ih cap h
        · simp only [genAlloc, if_neg h1, if_neg h2, drawSum, List.map_cons,
            List.sum_cons]
          have h3 := ih (cap - (ITEM_DEFS c.defKey).power) (by omega)
          unfold drawSum at h3
          omega

/-- Draw total of a list of positive-draw consumers is nonnegative. -/
theorem drawSum_nonneg_of_pos (l : List PlacedItem)
    (h : ∀ c ∈ l, 0 < (ITEM_DEFS c.defKey).power) : 0 ≤ drawSum l := by
  induction l with
  | nil => simp [drawSum]
  | cons hd tl ih =>
      have h1 := h hd (List.mem_cons_self hd tl)
      have h2 := ih (fun c hc => h c (List.mem_cons_of_mem hd hc))
      unfold drawSum at h2 ⊢
      simp only [List.map_cons, List.sum_cons]
      omega

/-- The allocated draw total is nonnegative. -/
theorem drawSum_genAlloc_nonneg (cap : ℤ) (links : List (Wire × PlacedItem)) :
    0 ≤ drawSum (genAlloc cap links) :=
  drawSum_nonneg_of_pos (genAlloc cap links) (genAlloc_pos cap links)

/-- After the generator fold, the genLoads entry of a generator id is the
allocated draw total for that id, and ids of no processed generator keep
their prior binding. -/
theorem loads_after (items : List PlacedItem) (wires : List Wire)
    (gens : List PlacedItem) :
    ∀ (st : List (List Bool) × List (String × ℤ)) (gid : String),
      recGet (gens.foldl (powerStep items wires) st).2 gid =
        if gens.any (fun g => g.id == gid)
        then some (drawSum (allocFor items wires gid))
        else recGet st.2 gid := by
  induction gens with
  | nil => intro st gid; simp
  | cons g tl ih =>
      intro st gid
      have hstep : powerStep items wires st g =
          (markTiles st.1 (genAlloc GEN_CAPACITY (linksFor items wires g.id)),
           recSet st.2 g.id (drawSum (genAlloc GEN_CAPACITY (linksFor items wires g.id)))) := by
        unfold powerStep
        rw [runLinks_spec g.id (linksFor items wires g.id) GEN_CAPACITY st.1
            (recSet st.2 g.id 0) 0 (recGet_recSet_self st.2 g.id 0)]
        rw [recSet_recSet_self]
        ring_nf
      simp only [List.foldl_cons, List.any_cons]
      rw [ih (powerStep items wires st g) gid, hstep]
      by_cases htl : (tl.any fun g2 => g2.id == gid) = true
      · simp [htl]
      · have htl2 : (tl.any fun g2 => g2.id == gid) = false := by
          revert htl
          cases tl.any fun g2 => g2.id == gid <;> simp
        simp only [htl2, Bool.or_false, Bool.false_eq_true, if_false]
        by_cases hg : g.id = gid
        · subst hg
          simp [recGet_recSet_self, allocFor]
        · have hgb : (g.id == gid) = false := by simp [hg]
          rw [recGet_recSet_ne st.2 g.id gid _ hg]
          simp [hgb]

theorem recGet_cons_ne (ka : String) (va : ℤ) (tl : List (String × ℤ))
    (k : String) (ha : ka ≠ k) : recGet ((ka, va) :: tl) k = recGet tl k := by
  simp [recGet, ha]

theorem recGet_append_of_none (m l : List (String × ℤ)) (k : String)
    (h : recGet m k = none) : recGet (m ++ l) k = recGet l k := by
  induction m with
  | nil => rfl
  | cons hd tl ih =>
      obtain ⟨ka, va⟩ := hd
      by_cases ha : ka = k
      · simp [recGet, ha] at h
      · have h2 : recGet tl k = none := by
          unfold recGet at h
          rw [if_neg ha] at h
          exact h
        show recGet ((ka, va) :: (tl ++ l)) k = recGet l k
        rw [recGet_cons_ne ka va (tl ++ l) k ha]
        exact ih h2

/-- Structure of genLoads after the generator fold: one entry per processed
generator, in order, holding its allocated draw total (generator ids
pairwise distinct). -/
theorem genLoads_struct (items : List PlacedItem) (wires : List Wire)
    (gens : List PlacedItem) :
    ∀ (st : List (List Bool) × List (String × ℤ)),
      (∀ g ∈ gens, recGet st.2 g.id = none) →
      (gens.map PlacedItem.id).Nodup →
      (gens.foldl (powerStep items wires) st).2 =
        st.2 ++ gens.map (fun g => (g.id, drawSum (allocFor items wires g.id))) := by
  induction gens with
  | nil => intro st h1 h2; simp
  | cons g tl ih =>
      intro st h1 h2
      have hstep : powerStep items wires st g =
          (markTiles st.1 (genAlloc GEN_CAPACITY (linksFor items wires g.id)),
           recSet st.2 g.id (drawSum (genAlloc GEN_CAPACITY (linksFor items wires g.id)))) := by
        unfold powerStep
        rw [runLinks_spec g.id (linksFor items wires g.id) GEN_CAPACITY st.1
            (recSet st.2 g.id 0) 0 (recGet_recSet_self st.2 g.id 0)]
        rw [recSet_recSet_self]
        ring_nf
      have hgnone : recGet st.2 g.id = none := h1 g (List.mem_cons_self g tl)
      have happ : (powerStep items wires st g).2 =
          st.2 ++ [(g.id, drawSum (allocFor items wires g.id))] := by
        rw [hstep]
        exact recSet_append_of_recGet_none st.2 g.id _ hgnone
      simp only [List.foldl_cons]
      rw [ih (powerStep items wires st g) ?_ ?_]
      · rw [happ, List.append_assoc]
        simp
      · intro g2 hg2
        rw [happ]
        have hne : g2.id ≠ g.id := by
          simp only [List.map_cons, List.nodup_cons] at h2
          intro hcon
          exact h2.1 (by rw [← hcon]; exact List.mem_map_of_mem PlacedItem.id hg2)
        rw [recGet_append_of_none st.2 _ g2.id (h1 g2 (List.mem_cons_of_mem g hg2))]
        simp [recGet, Ne.symm hne]
      · simp only [List.map_cons, List.nodup_cons] at h2
        exact h2.2

theorem loadTotal_append (a b : List (String × ℤ)) :
    loadTotal (a ++ b) = loadTotal a + loadTotal b := by
  simp [loadTotal]

theorem getD_oob (l : List α) (n : ℕ) (d : α) (h : l.length ≤ n) :
    l.getD n d = d := by
  induction l generalizing n with
  | nil => simp
  | cons hd tl ih =>
      cases n with
      | zero => simp at h
      | succ m => simpa using ih m (by simpa using h)

theorem set_oob (l : List α) (n : ℕ) (v : α) (h : l.length ≤ n) :
    l.set n v = l := by
  induction l generalizing n with
  | nil => simp
  | cons hd tl ih =>
      cases n with
      | zero => simp at h
      | succ m => simpa using ih m (by simpa using h)

theorem getD_mem (l : List α) (n : ℕ) (d : α) (h : n < l.length) :
    l.getD n d ∈ l := by
  induction l generalizing n with
  | nil => simp at h
  | cons hd tl ih =>
      cases n with
      | zero => simp
      | succ m =>
          simp only [List.getD_cons_succ]
          exact List.mem_cons_of_mem hd (ih m (by simpa using h))

theorem getD_set_self (l : List α) (n : ℕ) (v d : α) (h : n < l.length) :
    (l.set n v).getD n d = v := by
  induction l generalizing n with
  | nil => simp at h
  | cons hd tl ih =>
      cases n with
      | zero => simp
      | succ m => simpa using ih m (by simpa using h)

theorem getD_set_ne (l : List α) (n m : ℕ) (v d : α) (h : n ≠ m) :
    (l.set n v).getD m d = l.getD m d := by
  induction l generalizing n m with
  | nil => simp
  | cons hd tl ih =>
      cases n with
      | zero =>
          cases m with
          | zero => exact absurd rfl h
          | succ m2 => simp
      | succ n2 =>
          cases m with
          | zero => simp
          | succ m2 => simpa using ih n2 m2 (by omega)

theorem getD_replicate (n : ℕ) (a d : α) (m : ℕ) :
    (List.replicate n a).getD m d = if m < n then a else d := by
  induction n generalizing m with
  | zero => simp
  | succ k ih =>
      cases m with
      | zero => simp
      | succ m2 =>
          rw [List.replicate_succ]
          simp only [List.getD_cons_succ]
          rw [ih m2]
          simp [Nat.succ_lt_succ_iff]

theorem shaped_replicate (v : α) :
    Shaped (List.replicate GRID_H (List.replicate GRID_W v)) := by
  constructor
  · simp
  · intro row hrow
    rw [List.eq_of_mem_replicate hrow]
    simp

theorem shaped_row_len (m : List (List α)) (y : ℕ) (h : Shaped m)
    (hy : y < GRID_H) : (m.getD y []).length = GRID_W :=
  h.2 (m.getD y []) (getD_mem m y [] (by rw [h.1]; exact hy))

theorem shaped_set2d (m : List (List α)) (y x : ℕ) (v : α) (h : Shaped m) :
    Shaped (set2d m y x v) := by
  by_cases hy : y < m.length
  · constructor
    · simp [set2d, h.1]
    · intro row hrow
      unfold set2d at hrow
      rcases List.mem_or_eq_of_mem_set hrow with h1 | h1
      · exact h.2 row h1
      · rw [h1, List.length_set]
        exact shaped_row_len m y h (by rw [← h.1]; exact hy)
  · unfold set2d
    rw [set_oob m y _ (by omega)]
    exact h

theorem get2d_set2d_self (m : List (List α)) (y x : ℕ) (v d : α)
    (h : Shaped m) (hy : y < GRID_H) (hx : x < GRID_W) :
    get2d (set2d m y x v) y x d = v := by
  unfold get2d set2d
  rw [getD_set_self m y _ [] (by rw [h.1]; exact hy)]
  rw [getD_set_self _ x v d (by rw [shaped_row_len m y h hy]; exact hx)]

theorem get2d_set2d_ne (m : List (List α)) (y1 x1 y2 x2 : ℕ) (v d : α)
    (h : y1 ≠ y2 ∨ x1 ≠ x2) :
    get2d (set2d m y1 x1 v) y2 x2 d = get2d m y2 x2 d := by
  unfold get2d set2d
  rcases h with h | h
  · rw [getD_set_ne m y1 y2 _ [] h]
  · by_cases hy12 : y1 = y2
    · subst hy12
      by_cases hy : y1 < m.length
      · rw [getD_set_self m y1 _ [] hy]
        rw [getD_set_ne _ x1 x2 v d h]
      · rw [set_oob m y1 _ (by omega)]
    · rw [getD_set_ne m y1 y2 _ [] hy12]

theorem shaped_setTile (pm : List (List Bool)) (y x : ℤ) (h : Shaped pm) :
    Shaped (setTile pm y x) := by
  unfold setTile
  by_cases hg : 0 ≤ y ∧ 0 ≤ x
  · rw [if_pos hg]
    exact shaped_set2d pm y.toNat x.toNat true h
  · rw [if_neg hg]
    exact h

theorem getTile_oob (pm : List (List Bool)) (y x : ℤ) (h : Shaped pm)
    (hout : ¬ (0 ≤ y ∧ y < (GRID_H : ℤ) ∧ 0 ≤ x ∧ x < (GRID_W : ℤ))) :
    getTile pm y x = false := by
  unfold getTile
  by_cases hg : 0 ≤ y ∧ 0 ≤ x
  · rw [if_pos hg]
    unfold get2d
    by_cases hy : y.toNat < GRID_H
    · have hx : ¬ x.toNat < GRID_W := by omega
      rw [getD_oob _ x.toNat false (by rw [shaped_row_len pm y.toNat h hy]; omega)]
    · rw [getD_oob pm y.toNat [] (by rw [h.1]; omega)]
      simp
  · rw [if_neg hg]

theorem getTile_setTile_self (pm : List (List Bool)) (y x : ℤ) (h : Shaped pm)
    (hy : 0 ≤ y ∧ y < (GRID_H : ℤ)) (hx : 0 ≤ x ∧ x < (GRID_W : ℤ)) :
    getTile (setTile pm y x) y x = true := by
  unfold getTile setTile
  rw [if_pos ⟨hy.1, hx.1⟩, if_pos ⟨hy.1, hx.1⟩]
  exact get2d_set2d_self pm y.toNat x.toNat true false h (by omega) (by omega)

theorem getTile_setTile_ne (pm : List (List Bool)) (y1 x1 y2 x2 : ℤ)
    (h : ¬ (y1 = y2 ∧ x1 = x2)) :
    getTile (setTile pm y1 x1) y2 x2 = getTile pm y2 x2 := by
  unfold getTile setTile
  by_cases hg1 : 0 ≤ y1 ∧ 0 ≤ x1
  · rw [if_pos hg1]
    by_cases hg2 : 0 ≤ y2 ∧ 0 ≤ x2
    · rw [if_pos hg2, if_pos hg2]
      apply get2d_set2d_ne
      by_cases hyy : y1 = y2
      · right
        have hxx : x1 ≠ x2 := fun hc => h ⟨hyy, hc⟩
        omega
      · left
        omega
    · rw [if_neg hg2, if_neg hg2]
  · rw [if_neg hg1]

/-- Marking the tiles of a consumer list: an in-bounds tile reads true
afterwards exactly when it read true before or some consumer in the list
sits on it. -/
theorem getTile_markTiles (cs : List PlacedItem) :
    ∀ (pm : List (List Bool)) (y x : ℤ), Shaped pm →
      0 ≤ y → y < (GRID_H : ℤ) → 0 ≤ x → x < (GRID_W : ℤ) →
      getTile (markTiles pm cs) y x =
        (getTile pm y x || cs.any (fun c => c.y == y && c.x == x)) := by
  induction cs with
  | nil => intro pm y x h hy1 hy2 hx1 hx2; simp [markTiles]
  | cons c tl ih =>
      intro pm y x h hy1 hy2 hx1 hx2
      have hstep : markTiles pm (c :: tl) = markTiles (setTile pm c.y c.x) tl := rfl
      rw [hstep, ih (setTile pm c.y c.x) y x (shaped_setTile pm c.y c.x h) hy1 hy2 hx1 hx2]
      by_cases hc : c.y = y ∧ c.x = x
      · rw [hc.1, hc.2]
        rw [getTile_setTile_self pm y x h ⟨hy1, hy2⟩ ⟨hx1, hx2⟩]
        simp [hc.1, hc.2]
      · rw [getTile_setTile_ne pm c.y c.x y x hc]
        have hcb : (c.y == y && c.x == x) = false := by
          rcases not_and_or.mp hc with h1 | h1 <;> simp [h1]
        simp [hcb]

theorem shaped_markTiles (cs : List PlacedItem) :
    ∀ pm : List (List Bool), Shaped pm → Shaped (markTiles pm cs) := by
  induction cs with
  | nil => intro pm h; exact h
  | cons c tl ih =>
      intro pm h
      exact ih (setTile pm c.y c.x) (shaped_setTile pm c.y c.x h)

/-- The powerMap after the generator fold: an in-bounds tile is powered
exactly when it was powered before or some processed generator allocated a
consumer sitting on it. -/
theorem powerMap_after (items : List PlacedItem) (wires : List Wire)
    (gens : List PlacedItem) :
    ∀ (st : List (List Bool) × List (String × ℤ)) (y x : ℤ), Shaped st.1 →
      0 ≤ y → y < (GRID_H : ℤ) → 0 ≤ x → x < (GRID_W : ℤ) →
      getTile (gens.foldl (powerStep items wires) st).1 y x =
        (getTile st.1 y x ||
         gens.any (fun g => (allocFor items wires g.id).any
           (fun c => c.y == y && c.x == x))) := by
  induction gens with
  | nil => intro st y x h hy1 hy2 hx1 hx2; simp
  | cons g tl ih =>
      intro st y x h hy1 hy2 hx1 hx2
      have hstep : powerStep items wires st g =
          (markTiles st.1 (genAlloc GEN_CAPACITY (linksFor items wires g.id)),
           recSet st.2 g.id (drawSum (genAlloc GEN_CAPACITY (linksFor items wires g.id)))) := by
        unfold powerStep
        rw [runLinks_spec g.id (linksFor items wires g.id) GEN_CAPACITY st.1
            (recSet st.2 g.id 0) 0 (recGet_recSet_self st.2 g.id 0)]
        rw [recSet_recSet_self]
        ring_nf
      simp only [List.foldl_cons]
      rw [ih (powerStep items wires st g) y x
          (by rw [hstep]; exact shaped_markTiles _ st.1 h) hy1 hy2 hx1 hx2]
      rw [hstep]
      simp only [List.any_cons]
      rw [getTile_markTiles _ st.1 y x h hy1 hy2 hx1 hx2]
      unfold allocFor
      rw [Bool.or_assoc]

theorem shaped_powerMap (items : List PlacedItem) (wires : List Wire) :
    Shaped (computePowerFromWires items wires).powerMap := by
  rw [computePowerFromWires_def]
  have h : ∀ (gens : List PlacedItem) (st : List (List Bool) × List (String × ℤ)),
      Shaped st.1 → Shaped (gens.foldl (powerStep items wires) st).1 := by
    intro gens
    induction gens with
    | nil => intro st h; exact h
    | cons g tl ih =>
        intro st h
        apply ih
        unfold powerStep
        rw [runLinks_spec g.id (linksFor items wires g.id) GEN_CAPACITY st.1
            (recSet st.2 g.id 0) 0 (recGet_recSet_self st.2 g.id 0)]
        exact shaped_markTiles _ st.1 h
  exact h (runningGens items) _ (shaped_replicate false)

theorem foldl_pair_sum (l : List α) (f g : α → ℤ) :
    ∀ a b : ℤ,
      l.foldl (fun acc it => (acc.1 + f it, acc.2 + g it)) (a, b) =
        (a + (l.map f).sum, b + (l.map g).sum) := by
  induction l with
  | nil => intro a b; simp
  | cons hd tl ih =>
      intro a b
      simp only [List.foldl_cons, List.map_cons, List.sum_cons]
      rw [ih (a + f hd) (b + g hd), add_assoc, add_assoc]

/-- Closed form of scoreAll: vibe is the per-item sum, reduced by the noise
soft-cap when the noise sum exceeds 12, floored at zero; noise is the
per-item sum. -/
theorem scoreAll_eq (items : List PlacedItem) (pm : List (List Bool)) :
    scoreAll items pm =
      { vibe := max 0 (if 12 < noiseSum items pm
          then vibeSum items pm - jsRound (((noiseSum items pm : ℚ) - 12) * 1.5)
          else vibeSum items pm),
        noise := noiseSum items pm } := by
  unfold scoreAll
  rw [show items.foldl
        (fun (acc : ℤ × ℤ) it =>
          (acc.1 + jsRound (itemVibeQ items pm it), acc.2 + itemNoise pm it)) (0, 0) =
        (0 + (items.map (fun it => jsRound (itemVibeQ items pm it))).sum,
         0 + (items.map (itemNoise pm)).sum) from
      foldl_pair_sum items _ _ 0 0]
  simp only [zero_add]
  rfl

/-- Dropping dangling wires (those whose consumer id resolves to no item)
does not change the link lists: the defensive lookup already skips them. -/
theorem filterMap_filter_isSome (items : List PlacedItem) (gid : String) :
    ∀ tl : List Wire,
      List.filterMap (fun w => Option.map (fun it => (w, it)) (itemById items w.toItemId))
        (List.filter (fun a => a.fromGenId == gid && (itemById items a.toItemId).isSome) tl) =
      List.filterMap (fun w => Option.map (fun it => (w, it)) (itemById items w.toItemId))
        (List.filter (fun w => w.fromGenId == gid) tl) := by
  intro tl
  induction tl with
  | nil => rfl
  | cons w tl ih =>
      cases hit : itemById items w.toItemId with
      | none =>
          by_cases h2 : (w.fromGenId == gid) = true
          · simp [List.filter_cons, List.filterMap_cons, h2, hit, ih]
          · simp [List.filter_cons, h2, hit, ih]
      | some it =>
          by_cases h2 : (w.fromGenId == gid) = true
          · simp [List.filter_cons, List.filterMap_cons, h2, hit, ih]
          · simp [List.filter_cons, h2, hit, ih]

theorem linksRaw_filter (items : List PlacedItem) (wires : List Wire)
    (gid : String) :
    linksRaw items (wires.filter (fun w => (itemById items w.toItemId).isSome)) gid =
      linksRaw items wires gid := by
  unfold linksRaw
  rw [List.filter_filter]
  exact filterMap_filter_isSome items gid wires

/-- The whole allocator is unchanged by dropping dangling wires. -/
theorem computePowerFromWires_filter (items : List PlacedItem) (wires : List Wire) :
    computePowerFromWires items
        (wires.filter (fun w => (itemById items w.toItemId).isSome)) =
      computePowerFromWires items wires := by
  have hl : linksFor items (wires.filter (fun w => (itemById items w.toItemId).isSome)) =
      linksFor items wires := by
    funext gid
    unfold linksFor
    rw [linksRaw_filter]
  unfold computePowerFromWires
  rw [hl]

theorem mem_insLink (l b : Wire × PlacedItem) :
    ∀ ls, b ∈ insLink l ls ↔ b = l ∨ b ∈ ls := by
  intro ls
  induction ls with
  | nil => simp [insLink]
  | cons m rest ih =>
      unfold insLink
      by_cases hle : l.1.length ≤ m.1.length
      · rw [if_pos hle]
        simp [List.mem_cons]
      · rw [if_neg hle]
        simp only [List.mem_cons, ih]
        tauto

theorem sorted_insLink (l : Wire × PlacedItem) :
    ∀ ls, List.Sorted (fun a b : Wire × PlacedItem => a.1.length ≤ b.1.length) ls →
      List.Sorted (fun a b : Wire × PlacedItem => a.1.length ≤ b.1.length)
        (insLink l ls) := by
  intro ls
  induction ls with
  | nil => intro h; simp [insLink]
  | cons m rest ih =>
      intro h
      rw [List.sorted_cons] at h
      unfold insLink
      by_cases hle : l.1.length ≤ m.1.length
      · rw [if_pos hle, List.sorted_cons]
        refine ⟨?_, List.sorted_cons.mpr h⟩
        intro b hb
        rcases List.mem_cons.mp hb with h1 | h1
        · rw [h1]; exact hle
        · exact le_trans hle (h.1 b h1)
      · rw [if_neg hle, List.sorted_cons]
        refine ⟨?_, ih h.2⟩
        intro b hb
        rcases (mem_insLink l b rest).mp hb with h1 | h1
        · rw [h1]
          exact le_of_lt (lt_of_not_le hle)
        · exact h.1 b h1

/-- The candidate list of every generator is sorted ascending by stored
wire length. -/
theorem sorted_sortLinks (ls : List (Wire × PlacedItem)) :
    List.Sorted (fun a b : Wire × PlacedItem => a.1.length ≤ b.1.length)
      (sortLinks ls) := by
  induction ls with
  | nil => simp [sortLinks]
  | cons l rest ih => exact sorted_insLink l (sortLinks rest) ih

/-- Relation between the consumer-level allocation and the bare-draw
allocation loop. -/
theorem genAlloc_map_draw (links : List (Wire × PlacedItem)) :
    ∀ cap : ℤ,
      (genAlloc cap links).map (fun c => (ITEM_DEFS c.defKey).power) =
        allocDraws cap (links.map (fun l => (ITEM_DEFS l.2.defKey).power)) := by
  induction links with
  | nil => intro cap; rfl
  | cons hd tl ih =>
      intro cap
      obtain ⟨w, c⟩ := hd
      by_cases h1 : (ITEM_DEFS c.defKey).power ≤ 0
      · simp only [genAlloc, allocDraws, List.map_cons, if_pos h1]
        exact ih cap
      · by_cases h2 : cap < (ITEM_DEFS c.defKey).power
        · simp only [genAlloc, allocDraws, List.map_cons, if_neg h1, if_pos h2]
          exact ih cap
        · simp only [genAlloc, allocDraws, List.map_cons, if_neg h1, if_neg h2]
          rw [ih (cap - (ITEM_DEFS c.defKey).power)]

theorem mem_intRange (lo hi a : ℤ) : a ∈ intRange lo hi ↔ lo ≤ a ∧ a ≤ hi := by
  unfold intRange
  constructor
  · intro h
    obtain ⟨k, hk, hv⟩ := List.mem_map.mp h
    rw [List.mem_range] at hk
    have hv2 : lo + (k : ℤ) = a := hv
    omega
  · intro h
    apply List.mem_map.mpr
    refine ⟨(a - lo).toNat, ?_, ?_⟩
    · rw [List.mem_range]
      omega
    · show lo + ((a - lo).toNat : ℤ) = a
      omega

theorem nodup_intRange (lo hi : ℤ) : (intRange lo hi).Nodup := by
  unfold intRange
  apply List.Nodup.map
  · intro a b hab
    have hab2 : lo + (a : ℤ) = lo + (b : ℤ) := hab
    omega
  · exact List.nodup_range _

theorem get2d_oob (m : List (List α)) (y x : ℕ) (d : α) (h : Shaped m)
    (hout : ¬ (y < GRID_H ∧ x < GRID_W)) : get2d m y x d = d := by
  unfold get2d
  by_cases hy : y < GRID_H
  · have hx : ¬ x < GRID_W := fun hc => hout ⟨hy, hc⟩
    rw [getD_oob _ x d (by rw [shaped_row_len m y h hy]; omega)]
  · rw [getD_oob m y [] (by rw [h.1]; omega)]
    simp

theorem shaped_setCell (f : List (List ℝ)) (y x : ℤ) (v : ℝ) (h : Shaped f) :
    Shaped (setCell f y x v) := by
  unfold setCell
  by_cases hg : 0 ≤ y ∧ 0 ≤ x
  · rw [if_pos hg]
    exact shaped_set2d f y.toNat x.toNat v h
  · rw [if_neg hg]
    exact h

theorem getCell_setCell_self (f : List (List ℝ)) (y x : ℤ) (v : ℝ)
    (h : Shaped f) (hy : 0 ≤ y ∧ y < (GRID_H : ℤ)) (hx : 0 ≤ x ∧ x < (GRID_W : ℤ)) :
    getCell (setCell f y x v) y x = v := by
  unfold getCell setCell
  rw [if_pos ⟨hy.1, hx.1⟩, if_pos ⟨hy.1, hx.1⟩]
  exact get2d_set2d_self f y.toNat x.toNat v 0 h (by omega) (by omega)

theorem getCell_setCell_ne (f : List (List ℝ)) (y1 x1 y2 x2 : ℤ) (v : ℝ)
    (h : ¬ (y1 = y2 ∧ x1 = x2)) :
    getCell (setCell f y1 x1 v) y2 x2 = getCell f y2 x2 := by
  unfold getCell setCell
  by_cases hg1 : 0 ≤ y1 ∧ 0 ≤ x1
  · rw [if_pos hg1]
    by_cases hg2 : 0 ≤ y2 ∧ 0 ≤ x2
    · rw [if_pos hg2, if_pos hg2]
      apply get2d_set2d_ne
      by_cases hyy : y1 = y2
      · right
        have hxx : x1 ≠ x2 := fun hc => h ⟨hyy, hc⟩
        omega
      · left
        omega
    · rw [if_neg hg2, if_neg hg2]
  · rw [if_neg hg1]

theorem inner_fold_shaped (it : PlacedItem) (s : ℝ) (y : ℤ) (xs : List ℤ) :
    ∀ f : List (List ℝ), Shaped f →
      Shaped (xs.foldl
        (fun fx x => setCell fx y x (getCell fx y x + s * falloffAt it y x)) f) := by
  induction xs with
  | nil => intro f h; exact h
  | cons x xs ih =>
      intro f h
      exact ih _ (shaped_setCell f y x _ h)

/-- One row pass of the vibe-field window loop, characterized pointwise. -/
theorem inner_fold_spec (it : PlacedItem) (s : ℝ) (y : ℤ) (xs : List ℤ) :
    ∀ f : List (List ℝ), Shaped f → xs.Nodup →
      ∀ y2 x2 : ℤ, 0 ≤ y2 → y2 < (GRID_H : ℤ) → 0 ≤ x2 → x2 < (GRID_W : ℤ) →
        getCell (xs.foldl
            (fun fx x => setCell fx y x (getCell fx y x + s * falloffAt it y x)) f)
            y2 x2 =
          getCell f y2 x2 +
            (if y2 = y ∧ x2 ∈ xs then s * falloffAt it y2 x2 else 0) := by
  induction xs with
  | nil =>
      intro f hsh hnd y2 x2 hy1 hy2 hx1 hx2
      simp
  | cons x xs ih =>
      intro f hsh hnd y2 x2 hy1 hy2 hx1 hx2
      simp only [List.foldl_cons]
      rw [ih (setCell f y x (getCell f y x + s * falloffAt it y x))
          (shaped_setCell f y x _ hsh) (List.nodup_cons.mp hnd).2 y2 x2 hy1 hy2 hx1 hx2]
      by_cases hc : y2 = y ∧ x2 = x
      · obtain ⟨h1, h2⟩ := hc
        subst h1
        subst h2
        rw [getCell_setCell_self f y2 x2 _ hsh ⟨hy1, hy2⟩ ⟨hx1, hx2⟩]
        have hnot : ¬ (y2 = y2 ∧ x2 ∈ xs) := by
          intro hcon
          exact (List.nodup_cons.mp hnd).1 hcon.2
        rw [if_neg hnot, if_pos ⟨rfl, List.mem_cons_self x2 xs⟩]
        ring
      · rw [getCell_setCell_ne f y x y2 x2 _ (fun hcon => hc ⟨hcon.1.symm, hcon.2.symm⟩)]
        by_cases hm : y2 = y ∧ x2 ∈ xs
        · rw [if_pos hm, if_pos ⟨hm.1, List.mem_cons_of_mem x hm.2⟩]
        · rw [if_neg hm, if_neg ?_, add_zero]
          intro hcon
          rcases List.mem_cons.mp hcon.2 with h1 | h1
          · exact hc ⟨hcon.1, h1⟩
          · exact hm ⟨hcon.1, h1⟩

theorem outer_fold_shaped (it : PlacedItem) (s : ℝ) (xs : List ℤ) (ys : List ℤ) :
    ∀ f : List (List ℝ), Shaped f →
      Shaped (ys.foldl
        (fun fy y => xs.foldl
          (fun fx x => setCell fx y x (getCell fx y x + s * falloffAt it y x)) fy) f) := by
  induction ys with
  | nil => intro f h; exact h
  | cons y ys ih =>
      intro f h
      exact ih _ (inner_fold_shaped it s y xs f h)

/-- The whole window double loop of one item, characterized pointwise. -/
theorem outer_fold_spec (it : PlacedItem) (s : ℝ) (xs ys : List ℤ) :
    ∀ f : List (List ℝ), Shaped f → ys.Nodup → xs.Nodup →
      ∀ y2 x2 : ℤ, 0 ≤ y2 → y2 < (GRID_H : ℤ) → 0 ≤ x2 → x2 < (GRID_W : ℤ) →
        getCell (ys.foldl
            (fun fy y => xs.foldl
              (fun fx x => setCell fx y x (getCell fx y x + s * falloffAt it y x)) fy)
            f) y2 x2 =
          getCell f y2 x2 +
            (if y2 ∈ ys ∧ x2 ∈ xs then s * falloffAt it y2 x2 else 0) := by
  induction ys with
  | nil =>
      intro f hsh hynd hxnd y2 x2 hy1 hy2 hx1 hx2
      simp
  | cons y ys ih =>
      intro f hsh hynd hxnd y2 x2 hy1 hy2 hx1 hx2
      simp only [List.foldl_cons]
      rw [ih _ (inner_fold_shaped it s y xs f hsh) (List.nodup_cons.mp hynd).2 hxnd
          y2 x2 hy1 hy2 hx1 hx2]
      rw [inner_fold_spec it s y xs f hsh hxnd y2 x2 hy1 hy2 hx1 hx2]
      by_cases hc : y2 = y ∧ x2 ∈ xs
      · have hnot : ¬ (y2 ∈ ys ∧ x2 ∈ xs) := by
          intro hcon
          exact (List.nodup_cons.mp hynd).1 (by rw [← hc.1]; exact hcon.1)
        rw [if_pos hc, if_neg hnot,
            if_pos ⟨by rw [hc.1]; exact List.mem_cons_self y ys, hc.2⟩]
        ring
      · rw [if_neg hc]
        by_cases hm : y2 ∈ ys ∧ x2 ∈ xs
        · rw [if_pos hm, if_pos ⟨List.mem_cons_of_mem y hm.1, hm.2⟩]
          ring
        · rw [if_neg hm, if_neg ?_]
          · ring
          · intro hcon
            rcases List.mem_cons.mp hcon.1 with h1 | h1
            · exact hc ⟨h1, hcon.2⟩
            · exact hm ⟨h1, hcon.2⟩

theorem shaped_spreadItem (pm : List (List Bool)) (f : List (List ℝ))
    (it : PlacedItem) (h : Shaped f) : Shaped (spreadItem pm f it) := by
  simp only [spreadItem]
  by_cases hs : strengthOf pm it ≤ 0
  · rw [if_pos hs]
    exact h
  · rw [if_neg hs]
    exact outer_fold_shaped it _ _ _ f h

/-- One item pass of computeVibeField adds exactly its closed-form
contribution at every in-bounds tile. -/
theorem spreadItem_spec (pm : List (List Bool)) (f : List (List ℝ))
    (it : PlacedItem) (h : Shaped f) (y x : ℤ)
    (hy1 : 0 ≤ y) (hy2 : y < (GRID_H : ℤ)) (hx1 : 0 ≤ x) (hx2 : x < (GRID_W : ℤ)) :
    getCell (spreadItem pm f it) y x = getCell f y x + cellContrib pm it y x := by
  simp only [spreadItem, cellContrib]
  by_cases hs : strengthOf pm it ≤ 0
  · rw [if_pos hs, if_pos hs, add_zero]
  · rw [if_neg hs, if_neg hs]
    rw [outer_fold_spec it _ _ _ f h (nodup_intRange _ _) (nodup_intRange _ _)
        y x hy1 hy2 hx1 hx2]
    congr 1
    have hiff : (y ∈ intRange (max 0 (it.y - windowR it - 2))
          (min ((GRID_H : ℤ) - 1) (it.y + windowR it + 2)) ∧
        x ∈ intRange (max 0 (it.x - windowR it - 2))
          (min ((GRID_W : ℤ) - 1) (it.x + windowR it + 2))) ↔
        (max 0 (it.y - windowR it - 2) ≤ y ∧
          y ≤ min ((GRID_H : ℤ) - 1) (it.y + windowR it + 2) ∧
          max 0 (it.x - windowR it - 2) ≤ x ∧
          x ≤ min ((GRID_W : ℤ) - 1) (it.x + windowR it + 2)) := by
      rw [mem_intRange, mem_intRange]
      constructor
      · intro h2
        exact ⟨h2.1.1, h2.1.2, h2.2.1, h2.2.2⟩
      · intro h2
        exact ⟨⟨h2.1, h2.2.1⟩, h2.2.2.1, h2.2.2.2⟩
    exact if_congr hiff rfl rfl

/-- The item fold of computeVibeField accumulates the per-item closed-form
contributions at every in-bounds tile. -/
theorem field_fold_spec (pm : List (List Bool)) (items : List PlacedItem) :
    ∀ f : List (List ℝ), Shaped f →
      ∀ y x : ℤ, 0 ≤ y → y < (GRID_H : ℤ) → 0 ≤ x → x < (GRID_W : ℤ) →
        getCell (items.foldl (spreadItem pm) f) y x =
          getCell f y x + (items.map (fun it => cellContrib pm it y x)).sum := by
  induction items with
  | nil =>
      intro f h y x hy1 hy2 hx1 hx2
      simp
  | cons it items ih =>
      intro f h y x hy1 hy2 hx1 hx2
      simp only [List.foldl_cons, List.map_cons, List.sum_cons]
      rw [ih (spreadItem pm f it) (shaped_spreadItem pm f it h) y x hy1 hy2 hx1 hx2]
      rw [spreadItem_spec pm f it h y x hy1 hy2 hx1 hx2]
      ring

theorem shaped_computeVibeField (items : List PlacedItem) (pm : List (List Bool)) :
    Shaped (computeVibeField items pm) := by
  unfold computeVibeField
  have h : ∀ (l : List PlacedItem) (f : List (List ℝ)), Shaped f →
      Shaped (l.foldl (spreadItem pm) f) := by
    intro l
    induction l with
    | nil => intro f h; exact h
    | cons it l ih =>
        intro f h
        exact ih _ (shaped_spreadItem pm f it h)
  exact h items _ (shaped_replicate 0)

theorem get2d_replicate_self (h w y x : ℕ) (v : α) :
    get2d (List.replicate h (List.replicate w v)) y x v = v := by
  unfold get2d
  rw [getD_replicate]
  by_cases h1 : y < h
  · rw [if_pos h1, getD_replicate]
    by_cases h2 : x < w
    · rw [if_pos h2]
    · rw [if_neg h2]
  · rw [if_neg h1]
    rfl

theorem getTile_empty (y x : ℤ) :
    getTile (List.replicate GRID_H (List.replicate GRID_W false)) y x = false := by
  unfold getTile
  by_cases hg : 0 ≤ y ∧ 0 ≤ x
  · rw [if_pos hg]
    exact get2d_replicate_self GRID_H GRID_W y.toNat x.toNat false
  · rw [if_neg hg]

theorem getCell_empty (y x : ℤ) :
    getCell (List.replicate GRID_H (List.replicate GRID_W (0 : ℝ))) y x = 0 := by
  unfold getCell
  by_cases hg : 0 ≤ y ∧ 0 ≤ x
  · rw [if_pos hg]
    exact get2d_replicate_self GRID_H GRID_W y.toNat x.toNat 0
  · rw [if_neg hg]

/-- Final genLoads lookup: the allocated draw total for ids of running
generators, absent for every other id. -/
theorem genLoads_spec (items : List PlacedItem) (wires : List Wire) (gid : String) :
    recGet (computePowerFromWires items wires).genLoads gid =
      if (runningGens items).any (fun g => g.id == gid)
      then some (drawSum (allocFor items wires gid))
      else none := by
  rw [computePowerFromWires_def]
  rw [loads_after items wires (runningGens items) _ gid]
  rfl

/-- Final powerMap at an in-bounds tile: powered exactly when some running
generator allocates a consumer sitting on it. -/
theorem powerMap_spec (items : List PlacedItem) (wires : List Wire) (y x : ℤ)
    (hy1 : 0 ≤ y) (hy2 : y < (GRID_H : ℤ)) (hx1 : 0 ≤ x) (hx2 : x < (GRID_W : ℤ)) :
    getTile (computePowerFromWires items wires).powerMap y x =
      (runningGens items).any (fun g => (allocFor items wires g.id).any
        (fun c => c.y == y && c.x == x)) := by
  rw [computePowerFromWires_def]
  rw [powerMap_after items wires (runningGens items) _ y x (shaped_replicate false)
      hy1 hy2 hx1 hx2]
  rw [getTile_empty, Bool.false_or]

/-- Final genLoads as a list: one entry per running generator, in order,
when ids are pairwise distinct. -/
theorem genLoads_entries (items : List PlacedItem) (wires : List Wire)
    (h : ((runningGens items).map PlacedItem.id).Nodup) :
    (computePowerFromWires items wires).genLoads =
      (runningGens items).map (fun g => (g.id, drawSum (allocFor items wires g.id))) := by
  rw [computePowerFromWires_def]
  rw [genLoads_struct items wires (runningGens items)
      (List.replicate GRID_H (List.replicate GRID_W false), ([] : List (String × ℤ)))
      (fun g hg => rfl) h]
  rfl

theorem loadTotal_map (l : List PlacedItem) (f : PlacedItem → ℤ) :
    loadTotal (l.map (fun g => (g.id, f g))) = (l.map f).sum := by
  unfold loadTotal
  rw [List.map_map]
  rfl

theorem itemById_mem_aux (iid : String) :
    ∀ (l : List PlacedItem) (acc : Option PlacedItem) (it : PlacedItem),
      l.foldl (fun a i => if i.id = iid then some i else a) acc = some it →
      it ∈ l ∨ acc = some it := by
  intro l
  induction l with
  | nil => intro acc it h; exact Or.inr h
  | cons i l ih =>
      intro acc it h
      simp only [List.foldl_cons] at h
      rcases ih (if i.id = iid then some i else acc) it h with h1 | h1
      · exact Or.inl (List.mem_cons_of_mem i h1)
      · by_cases h2 : i.id = iid
        · rw [if_pos h2] at h1
          injection h1 with h3
          exact Or.inl (h3 ▸ List.mem_cons_self i l)
        · rw [if_neg h2] at h1
          exact Or.inr h1

theorem itemById_mem (items : List PlacedItem) (iid : String) (it : PlacedItem)
    (h : itemById items iid = some it) : it ∈ items := by
  rcases itemById_mem_aux iid items none it h with h1 | h1
  · exact h1
  · simp at h1

theorem mem_sortLinks (b : Wire × PlacedItem) :
    ∀ ls, b ∈ sortLinks ls ↔ b ∈ ls := by
  intro ls
  induction ls with
  | nil => exact Iff.rfl
  | cons l rest ih =>
      unfold sortLinks
      rw [mem_insLink]
      simp [ih]

theorem genAlloc_mem (c : PlacedItem) :
    ∀ (links : List (Wire × PlacedItem)) (cap : ℤ),
      c ∈ genAlloc cap links → ∃ w : Wire, (w, c) ∈ links := by
  intro links
  induction links with
  | nil => intro cap h; simp [genAlloc] at h
  | cons hd tl ih =>
      intro cap h
      obtain ⟨w1, c1⟩ := hd
      by_cases h1 : (ITEM_DEFS c1.defKey).power ≤ 0
      · simp only [genAlloc, if_pos h1] at h
        obtain ⟨w, hw⟩ := ih cap h
        exact ⟨w, List.mem_cons_of_mem _ hw⟩
      · by_cases h2 : cap < (ITEM_DEFS c1.defKey).power
        · simp only [genAlloc, if_neg h1, if_pos h2] at h
          obtain ⟨w, hw⟩ := ih cap h
          exact ⟨w, List.mem_cons_of_mem _ hw⟩
        · simp only [genAlloc, if_neg h1, if_neg h2, List.mem_cons] at h
          rcases h with h | h
          · exact ⟨w1, by rw [h]; exact List.mem_cons_self _ _⟩
          · obtain ⟨w, hw⟩ := ih _ h
            exact ⟨w, List.mem_cons_of_mem _ hw⟩

theorem linksRaw_consumer_mem (items : List PlacedItem) (wires : List Wire)
    (gid : String) (w : Wire) (c : PlacedItem)
    (h : (w, c) ∈ linksRaw items wires gid) : c ∈ items := by
  unfold linksRaw at h
  obtain ⟨w2, hw2, hmap⟩ := List.mem_filterMap.mp h
  cases hit : itemById items w2.toItemId with
  | none => rw [hit] at hmap; simp at hmap
  | some it =>
      rw [hit] at hmap
      have hmap2 : (w2, it) = (w, c) := by injection hmap
      have hc : it = c := congrArg Prod.snd hmap2
      exact itemById_mem items w2.toItemId c (by rw [← hc]; exact hit)

/-- Every consumer allocated to a generator is one of the placed items. -/
theorem allocFor_mem_items (items : List PlacedItem) (wires : List Wire)
    (gid : String) (c : PlacedItem) (h : c ∈ allocFor items wires gid) :
    c ∈ items := by
  unfold allocFor linksFor at h
  obtain ⟨w, hw⟩ := genAlloc_mem c _ GEN_CAPACITY h
  exact linksRaw_consumer_mem items wires gid w c ((mem_sortLinks (w, c) _).mp hw)

/-- C4: for every list of placed items and wires and every running
generator g, the genLoads entry of g is exactly the sum of the power draws
of the consumers allocated to g, is nonnegative, and never exceeds the
capacity constant GEN_CAPACITY, which equals 6. -/
theorem c4_generator_capacity (items : List PlacedItem) (wires : List Wire) :
    (∀ g ∈ runningGens items,
      recGet (computePowerFromWires items wires).genLoads g.id =
        some (drawSum (allocFor items wires g.id)) ∧
      0 ≤ drawSum (allocFor items wires g.id) ∧
      drawSum (allocFor items wires g.id) ≤ GEN_CAPACITY) ∧
    GEN_CAPACITY = 6 := by
  constructor
  · intro g hg
    refine ⟨?_, drawSum_genAlloc_nonneg GEN_CAPACITY _, ?_⟩
    · rw [genLoads_spec items wires g.id]
      rw [if_pos ?_]
      rw [List.any_eq_true]
      exact ⟨g, hg, by simp⟩
    · exact drawSum_genAlloc_le _ GEN_CAPACITY (by decide)
  · rfl

/-- Witness for C4 at the concrete two-generator instance. -/
theorem c4_generator_capacity_witness :
    recGet (computePowerFromWires exItems exWires).genLoads "g1" =
      some (drawSum (allocFor exItems exWires "g1")) ∧
    drawSum (allocFor exItems exWires "g1") ≤ GEN_CAPACITY := by
  have h := (c4_generator_capacity exItems exWires).1 exGen1 (by decide)
  exact ⟨h.1, h.2.2⟩

/-- C6: the noise soft-cap of scoreAll: no effect when the noise sum is at
most 12; above 12 the vibe sum is reduced by round((noise-12)*1.5); at
noise 20 the reduction is exactly 12; the final vibe is never negative and
the returned noise is the per-item sum. -/
theorem c6_noise_soft_cap (items : List PlacedItem) (pm : List (List Bool)) :
    (noiseSum items pm ≤ 12 →
      (scoreAll items pm).vibe = max 0 (vibeSum items pm)) ∧
    (12 < noiseSum items pm →
      (scoreAll items pm).vibe =
        max 0 (vibeSum items pm - jsRound (((noiseSum items pm : ℚ) - 12) * 1.5))) ∧
    (noiseSum items pm = 20 →
      (scoreAll items pm).vibe = max 0 (vibeSum items pm - 12)) ∧
    0 ≤ (scoreAll items pm).vibe ∧
    (scoreAll items pm).noise = noiseSum items pm := by
  rw [scoreAll_eq items pm]
  refine ⟨?_, ?_, ?_, ?_, rfl⟩
  · intro h
    rw [if_neg (by omega)]
  · intro h
    rw [if_pos h]
  · intro h
    rw [if_pos (by omega), h]
    norm_num [jsRound]
  · exact le_max_left 0 _

/-- Witness for C6: a configuration with noise sum exactly 20, where the
returned vibe is the vibe sum reduced by 12 and floored. -/
theorem c6_noise_soft_cap_witness :
    noiseSum c6Items c6Pm = 20 ∧
    (scoreAll c6Items c6Pm).vibe = max 0 (vibeSum c6Items c6Pm - 12) := by
  have h1 : getTile c6Pm 0 0 = true := by decide
  have h2 : getTile c6Pm 0 4 = true := by decide
  have h3 : getTile c6Pm 0 8 = true := by decide
  have h4 : getTile c6Pm 0 12 = true := by decide
  have hn : noiseSum c6Items c6Pm = 20 := by
    simp only [c6Items, noiseSum, List.map_cons, List.map_nil, List.sum_cons,
      List.sum_nil, itemNoise, itemNoiseQ, ITEM_DEFS, h1, h2, h3, h4]
    norm_num [jsRound]
  exact ⟨hn, (c6_noise_soft_cap c6Items c6Pm).2.2.1 hn⟩

/-- C7 counterexample input: the static catalog has no item kind with power
draw 3 (the largest is 2), so no placed consumer can draw 3 and the quoted
2,2,3 wiring scenario is unrealizable at the item level. -/
theorem c7_counterexample : ¬ ∃ k : ItemKey, (ITEM_DEFS k).power = 3 := by
  decide

/-- C7 amended: the allocation loop run on draws 2,2,3 with capacity 6
allocates the first two (load 4) and skips the third; the loop over placed
consumers computes exactly this bare-draw loop on the draws of its link
list; candidate links are always processed ascending by stored wire
length; and in the realizable analogue (draws 2,2,2,1, lengths ascending)
the generator powers the three large speakers (load 6) and leaves the
small speaker unpowered. -/
theorem c7_capacity_scenario :
    allocDraws GEN_CAPACITY [2, 2, 3] = [2, 2] ∧
    (allocDraws GEN_CAPACITY [2, 2, 3]).sum = 2 + 2 ∧
    (∀ (links : List (Wire × PlacedItem)) (cap : ℤ),
      (genAlloc cap links).map (fun c => (ITEM_DEFS c.defKey).power) =
        allocDraws cap (links.map (fun l => (ITEM_DEFS l.2.defKey).power))) ∧
    (∀ ls : List (Wire × PlacedItem),
      List.Sorted (fun a b : Wire × PlacedItem => a.1.length ≤ b.1.length)
        (sortLinks ls)) ∧
    recGet (computePowerFromWires c7Items c7Wires).genLoads "G" = some 6 ∧
    getTile (computePowerFromWires c7Items c7Wires).powerMap 0 0 = true ∧
    getTile (computePowerFromWires c7Items c7Wires).powerMap 0 4 = true ∧
    getTile (computePowerFromWires c7Items c7Wires).powerMap 0 8 = true ∧
    getTile (computePowerFromWires c7Items c7Wires).powerMap 0 12 = false := by
  refine ⟨by decide, by decide, ?_, sorted_sortLinks, by decide, by decide, by decide,
    by decide, by decide⟩
  intro links cap
  exact genAlloc_map_draw links cap

/-- C10: the allocator is defensive and total: dropping every dangling wire
(whose consumer id matches no item) leaves the PowerResult unchanged; no
allocated consumer has power draw 0; and every powered tile hosts an
allocated consumer with positive draw. -/
theorem c10_dangling_and_zero_draw (items : List PlacedItem) (wires : List Wire) :
    computePowerFromWires items
        (wires.filter (fun w => (itemById items w.toItemId).isSome)) =
      computePowerFromWires items wires ∧
    (∀ gid : String, ∀ c ∈ allocFor items wires gid, 0 < (ITEM_DEFS c.defKey).power) ∧
    (∀ y x : ℤ, getTile (computePowerFromWires items wires).powerMap y x = true →
      ∃ g ∈ runningGens items, ∃ c ∈ allocFor items wires g.id,
        0 < (ITEM_DEFS c.defKey).power ∧ c.y = y ∧ c.x = x) := by
  refine ⟨computePowerFromWires_filter items wires, ?_, ?_⟩
  · intro gid c hc
    exact genAlloc_pos GEN_CAPACITY _ c hc
  · intro y x htrue
    by_cases hb : 0 ≤ y ∧ y < (GRID_H : ℤ) ∧ 0 ≤ x ∧ x < (GRID_W : ℤ)
    · rw [powerMap_spec items wires y x hb.1 hb.2.1 hb.2.2.1 hb.2.2.2] at htrue
      obtain ⟨g, hg, hany⟩ := List.any_eq_true.mp htrue
      obtain ⟨c, hc, hcoord⟩ := List.any_eq_true.mp hany
      rw [Bool.and_eq_true, beq_iff_eq, beq_iff_eq] at hcoord
      exact ⟨g, hg, c, hc, genAlloc_pos GEN_CAPACITY _ c hc, hcoord.1, hcoord.2⟩
    · rw [getTile_oob _ y x (shaped_powerMap items wires) hb] at htrue
      exact absurd htrue (by simp)

/-- Witness for C10 at the concrete two-generator instance: the consumer
tile (y 0, x 2) is powered and indeed hosts an allocated positive-draw
consumer. -/
theorem c10_dangling_and_zero_draw_witness :
    getTile (computePowerFromWires exItems exWires).powerMap 0 2 = true ∧
    ∃ g ∈ runningGens exItems, ∃ c ∈ allocFor exItems exWires g.id,
      0 < (ITEM_DEFS c.defKey).power ∧ c.y = 0 ∧ c.x = 2 := by
  refine ⟨by decide, ?_⟩
  exact (c10_dangling_and_zero_draw exItems exWires).2.2 0 2 (by decide)

/-- C9: computeVibeField returns a GRID_H by GRID_W grid whose every
in-bounds tile holds the sum over all items of their closed-form
contribution (zero for non-positive effective strength, otherwise
strength times the inverse-distance falloff inside the clamped window of
half-width range + 2), and every out-of-range index reads the default 0:
no tile outside the grid is ever written. -/
theorem c9_vibe_field_accumulation (items : List PlacedItem) (pm : List (List Bool)) :
    (computeVibeField items pm).map List.length = List.replicate GRID_H GRID_W ∧
    ∀ y x : ℕ, get2d (computeVibeField items pm) y x 0 =
      if y < GRID_H ∧ x < GRID_W
      then (items.map (fun it => cellContrib pm it (y : ℤ) (x : ℤ))).sum
      else 0 := by
  have hsh := shaped_computeVibeField items pm
  constructor
  · apply List.eq_replicate_iff.mpr
    constructor
    · rw [List.length_map]
      exact hsh.1
    · intro b hb
      obtain ⟨row, hrow, hlen⟩ := List.mem_map.mp hb
      rw [← hlen]
      exact hsh.2 row hrow
  · intro y x
    by_cases hb : y < GRID_H ∧ x < GRID_W
    · rw [if_pos hb]
      have h1 : get2d (computeVibeField items pm) y x 0 =
          getCell (computeVibeField items pm) (y : ℤ) (x : ℤ) := by
        unfold getCell
        rw [if_pos ⟨Int.natCast_nonneg y, Int.natCast_nonneg x⟩]
        rw [Int.toNat_natCast, Int.toNat_natCast]
      rw [h1]
      unfold computeVibeField
      rw [field_fold_spec pm items _ (shaped_replicate 0) (y : ℤ) (x : ℤ)
          (Int.natCast_nonneg y) (by exact_mod_cast hb.1)
          (Int.natCast_nonneg x) (by exact_mod_cast hb.2)]
      rw [getCell_empty, zero_add]
    · rw [if_neg hb]
      exact get2d_oob _ y x 0 hsh hb

/-- An in-bounds powered tile hosts an allocated consumer and conversely:
the powered-tile characterization used by the attribution claims. -/
theorem getTile_true_iff (items : List PlacedItem) (wires : List Wire)
    (hin : ∀ i ∈ items, 0 ≤ i.x ∧ i.x < (GRID_W : ℤ) ∧ 0 ≤ i.y ∧ i.y < (GRID_H : ℤ))
    (y x : ℤ) :
    getTile (computePowerFromWires items wires).powerMap y x = true ↔
      ∃ g ∈ runningGens items, ∃ c ∈ allocFor items wires g.id,
        c.y = y ∧ c.x = x := by
  constructor
  · intro htrue
    by_cases hb : 0 ≤ y ∧ y < (GRID_H : ℤ) ∧ 0 ≤ x ∧ x < (GRID_W : ℤ)
    · rw [powerMap_spec items wires y x hb.1 hb.2.1 hb.2.2.1 hb.2.2.2] at htrue
      obtain ⟨g, hg, hany⟩ := List.any_eq_true.mp htrue
      obtain ⟨c, hc, hcoord⟩ := List.any_eq_true.mp hany
      rw [Bool.and_eq_true, beq_iff_eq, beq_iff_eq] at hcoord
      exact ⟨g, hg, c, hc, hcoord.1, hcoord.2⟩
    · rw [getTile_oob _ y x (shaped_powerMap items wires) hb] at htrue
      exact absurd htrue (by simp)
  · intro hex
    obtain ⟨g, hg, c, hc, hcy, hcx⟩ := hex
    have hcitems : c ∈ items := allocFor_mem_items items wires g.id c hc
    have hcb := hin c hcitems
    rw [powerMap_spec items wires y x (by omega) (by omega) (by omega) (by omega)]
    rw [List.any_eq_true]
    refine ⟨g, hg, ?_⟩
    rw [List.any_eq_true]
    refine ⟨c, hc, ?_⟩
    rw [Bool.and_eq_true, beq_iff_eq, beq_iff_eq]
    exact ⟨hcy, hcx⟩

/-- C1 counterexample: two running generators each wired to the same
consumer; computePowerFromWires attributes the consumer's draw to both
(total load 2), while the distinct powered consumers draw only 1 in
total, so power attribution is not a partition and later generators do
not skip an already powered consumer. -/
theorem c1_counterexample :
    loadTotal (computePowerFromWires exItems exWires).genLoads = 2 ∧
    drawSum (poweredConsumers exItems
      (computePowerFromWires exItems exWires).powerMap) = 1 ∧
    exSpk ∈ allocFor exItems exWires "g1" ∧
    exSpk ∈ allocFor exItems exWires "g2" ∧
    (2 : ℤ) ≠ 1 := by
  refine ⟨by decide, by decide, by decide, by decide, by decide⟩

/-- C1 amended: each running generator allocates along its own sorted
wire list independently of every other generator (no first-writer-wins
skip), its genLoads entry being its allocated draw total; the total of
genLoads is the sum over running generators of these per-generator totals
(which double-counts a consumer wired to several generators); and an
in-bounds tile is powered exactly when some running generator allocates a
consumer on it. -/
theorem c1_power_attribution (items : List PlacedItem) (wires : List Wire)
    (hnd : ((runningGens items).map PlacedItem.id).Nodup)
    (hin : ∀ i ∈ items, 0 ≤ i.x ∧ i.x < (GRID_W : ℤ) ∧ 0 ≤ i.y ∧ i.y < (GRID_H : ℤ)) :
    (computePowerFromWires items wires).genLoads =
      (runningGens items).map (fun g => (g.id, drawSum (allocFor items wires g.id))) ∧
    loadTotal (computePowerFromWires items wires).genLoads =
      ((runningGens items).map (fun g => drawSum (allocFor items wires g.id))).sum ∧
    ∀ y x : ℤ, getTile (computePowerFromWires items wires).powerMap y x = true ↔
      ∃ g ∈ runningGens items, ∃ c ∈ allocFor items wires g.id,
        c.y = y ∧ c.x = x := by
  refine ⟨genLoads_entries items wires hnd, ?_, ?_⟩
  · rw [genLoads_entries items wires hnd, loadTotal_map]
  · intro y x
    exact getTile_true_iff items wires hin y x

/-- Witness for C1 amended at the concrete shared-consumer instance. -/
theorem c1_power_attribution_witness :
    (computePowerFromWires exItems exWires).genLoads =
      [("g1", drawSum (allocFor exItems exWires "g1")),
       ("g2", drawSum (allocFor exItems exWires "g2"))] := by
  have h := c1_power_attribution exItems exWires (by decide) (by decide)
  rw [h.1]
  rfl

/-- C3 counterexample: a running generator with no linked consumers is
present in genLoads with load 0, not absent. -/
theorem c3_counterexample :
    recGet (computePowerFromWires [exGen1] []).genLoads "g1" = some 0 ∧
    some (0 : ℤ) ≠ (none : Option ℤ) := by
  refine ⟨by decide, by decide⟩

/-- C3 amended: an id carried by no running generator (in particular the
id of any generator that is off or out of fuel, when ids are unique) is
absent from genLoads; every running generator has an entry equal to its
allocated draw total, which is 0 when it has zero linked consumers — such
a generator is present with load 0 rather than absent, and powers no
tile. -/
theorem c3_gen_load_entries (items : List PlacedItem) (wires : List Wire) :
    (∀ gid : String, ((runningGens items).all (fun g => !(g.id == gid))) = true →
      recGet (computePowerFromWires items wires).genLoads gid = none) ∧
    ∀ g ∈ runningGens items,
      recGet (computePowerFromWires items wires).genLoads g.id =
        some (drawSum (allocFor items wires g.id)) ∧
      (linksRaw items wires g.id = [] →
        recGet (computePowerFromWires items wires).genLoads g.id = some 0) := by
  constructor
  · intro gid habs
    rw [genLoads_spec items wires gid]
    rw [if_neg ?_]
    intro hany
    obtain ⟨g, hg, hid⟩ := List.any_eq_true.mp hany
    rw [List.all_eq_true] at habs
    have h2 := habs g hg
    rw [hid] at h2
    exact absurd h2 (by simp)
  · intro g hg
    have hsome : recGet (computePowerFromWires items wires).genLoads g.id =
        some (drawSum (allocFor items wires g.id)) := by
      rw [genLoads_spec items wires g.id]
      rw [if_pos ?_]
      rw [List.any_eq_true]
      exact ⟨g, hg, by simp⟩
    refine ⟨hsome, ?_⟩
    intro hlinks
    rw [hsome]
    unfold allocFor linksFor
    rw [hlinks]
    rfl

/-- Witness for C3 amended: with one running generator and no wires, a
foreign id is absent and the generator's own entry is 0. -/
theorem c3_gen_load_entries_witness :
    recGet (computePowerFromWires [exGen1] []).genLoads "zz" = none ∧
    recGet (computePowerFromWires [exGen1] []).genLoads "g1" = some 0 := by
  have h := c3_gen_load_entries [exGen1] []
  exact ⟨h.1 "zz" (by decide), (h.2 exGen1 (by decide)).2 (by decide)⟩

/-- C2 counterexample: both items draw power and sit on unpowered tiles,
yet the unpowered speaker still receives the deck-proximity bonus after
its base vibe is zeroed, contributing 3 vibe; scoreAll returns vibe 3,
not 0.  (The noise half of the claim does hold: each unpowered item
contributes its base noise plus 1.) -/
theorem c2_counterexample :
    0 < (ITEM_DEFS c2Spk.defKey).power ∧
    getTile pmAllFalse c2Spk.y c2Spk.x = false ∧
    0 < (ITEM_DEFS c2Deck.defKey).power ∧
    getTile pmAllFalse c2Deck.y c2Deck.x = false ∧
    jsRound (itemVibeQ [c2Spk, c2Deck] pmAllFalse c2Spk) = 3 ∧
    scoreAll [c2Spk, c2Deck] pmAllFalse = { vibe := 3, noise := 5 } := by
  have hf1 : [c2Spk, c2Deck].filter (fun i => i.defKey == ItemKey.deck) = [c2Deck] := by
    decide
  have hf2 : [c2Spk, c2Deck].filter
      (fun i => i.defKey == ItemKey.speaker_s || i.defKey == ItemKey.speaker_l) =
      [c2Spk] := by decide
  have hf3 : [c2Spk, c2Deck].filter (fun i => i.defKey == ItemKey.tent) = [] := by
    decide
  have hf4 : [c2Spk, c2Deck].filter (fun i => i.defKey == ItemKey.light) = [] := by
    decide
  have hg1 : getTile pmAllFalse c2Spk.y c2Spk.x = false := by decide
  have hg2 : getTile pmAllFalse c2Deck.y c2Deck.x = false := by decide
  have hg1n : getTile pmAllFalse 0 0 = false := by decide
  have hg2n : getTile pmAllFalse 0 3 = false := by decide
  have hcond0 : 0 < (ITEM_DEFS c2Spk.defKey).power ∧
      getTile pmAllFalse c2Spk.y c2Spk.x = false := by decide
  have hcondd : 0 < (ITEM_DEFS c2Deck.defKey).power ∧
      getTile pmAllFalse c2Deck.y c2Deck.x = false := by decide
  have hspk : (c2Spk.defKey == ItemKey.speaker_s || c2Spk.defKey == ItemKey.speaker_l) = true := by
    decide
  have hspkd : (c2Deck.defKey == ItemKey.speaker_s || c2Deck.defKey == ItemKey.speaker_l) = false := by
    decide
  have htent : (c2Spk.defKey == ItemKey.tent) = false := by decide
  have htentd : (c2Deck.defKey == ItemKey.tent) = false := by decide
  have hsl : (c2Spk.defKey == ItemKey.speaker_l) = false := by decide
  have hany1 : [c2Deck].any (fun d => withinR d c2Spk 3) = true := by decide
  have hany2 : [c2Spk].any (fun s => !(s.id == c2Spk.id) && withinR s c2Spk 2) = false := by
    decide
  have hvs : itemVibeQ [c2Spk, c2Deck] pmAllFalse c2Spk = 3 := by
    simp only [itemVibeQ, hf1, hf2, hf3, hf4, htent, hspk, hsl, hany1, hany2,
      Bool.false_eq_true, if_false, if_true]
    rw [if_pos hcond0]
    have hbv : (ITEM_DEFS c2Spk.defKey).baseVibe = 6 := by norm_num [c2Spk, ITEM_DEFS]
    rw [hbv]
    norm_num [jsRound]
    rfl
  have hvd : itemVibeQ [c2Spk, c2Deck] pmAllFalse c2Deck = 0 := by
    simp only [itemVibeQ, hf1, hf2, hf3, hf4, htentd, hspkd,
      Bool.false_eq_true, if_false]
    rw [if_pos hcondd]
  have hns : noiseSum [c2Spk, c2Deck] pmAllFalse = 5 := by
    simp only [noiseSum, List.map_cons, List.map_nil, List.sum_cons, List.sum_nil,
      itemNoise, itemNoiseQ, ITEM_DEFS, c2Spk, c2Deck, hg1n, hg2n]
    norm_num [jsRound]
  have hvsum : vibeSum [c2Spk, c2Deck] pmAllFalse = 3 := by
    simp only [vibeSum, List.map_cons, List.map_nil, List.sum_cons, List.sum_nil,
      hvs, hvd]
    norm_num [jsRound]
  refine ⟨by decide, hg1, by decide, hg2, ?_, ?_⟩
  · rw [hvs]
    norm_num [jsRound]
  · rw [scoreAll_eq, hns, hvsum]
    norm_num

/-- C2 amended: an item with positive power draw on an unpowered tile has
its base vibe zeroed but still receives the item-kind adjustments (its
contribution before rounding is the adjustment chain started from zero),
so only items without adjustments (decks and lights) contribute exactly
zero vibe; its noise contribution is its base noise plus 1, floored at
zero and rounded. -/
theorem c2_unpowered_contribution (items : List PlacedItem) (pm : List (List Bool))
    (it : PlacedItem) (hp : 0 < (ITEM_DEFS it.defKey).power)
    (hu : getTile pm it.y it.x = false) :
    itemNoise pm it = max 0 (jsRound ((ITEM_DEFS it.defKey).noise + 1)) ∧
    itemVibeQ items pm it = adjVibeZero items it ∧
    ((it.defKey = ItemKey.deck ∨ it.defKey = ItemKey.light) →
      jsRound (itemVibeQ items pm it) = 0) := by
  have hvz : itemVibeQ items pm it = adjVibeZero items it := by
    have hc : (if 0 < (ITEM_DEFS it.defKey).power ∧ getTile pm it.y it.x = false
        then (0 : ℚ) else (ITEM_DEFS it.defKey).baseVibe) = (0 : ℚ) :=
      if_pos ⟨hp, hu⟩
    simp only [itemVibeQ, adjVibeZero, hc]
  refine ⟨?_, hvz, ?_⟩
  · unfold itemNoise itemNoiseQ
    rw [if_pos ⟨hp, hu⟩]
  · intro hk
    rw [hvz]
    have h1 : (it.defKey == ItemKey.speaker_s || it.defKey == ItemKey.speaker_l) = false := by
      rcases hk with hk | hk <;> rw [hk] <;> decide
    have h2 : (it.defKey == ItemKey.tent) = false := by
      rcases hk with hk | hk <;> rw [hk] <;> decide
    simp only [adjVibeZero, h1, h2, Bool.false_eq_true, if_false]
    norm_num [jsRound]

/-- Witness for C2 amended at the unpowered speaker instance. -/
theorem c2_unpowered_contribution_witness :
    itemNoise pmAllFalse c2Spk =
      max 0 (jsRound ((ITEM_DEFS c2Spk.defKey).noise + 1)) ∧
    itemVibeQ [c2Spk, c2Deck] pmAllFalse c2Spk = adjVibeZero [c2Spk, c2Deck] c2Spk := by
  have h := c2_unpowered_contribution [c2Spk, c2Deck] pmAllFalse c2Spk
    (by decide) (by decide)
  exact ⟨h.1, h.2.1⟩

/-- C5: the objective tracker maps goalStep over the goals and awards the
rewards of exactly the pending goals whose condition holds; goalStep never
changes a non-pending goal, completes a pending goal whose condition
holds, fails a pending goal past its deadline, leaves other pending goals
pending, and any status change starts from pending and ends in completed
or failed. -/
theorem c5_goal_transitions (goals : List Goal) (snap : Snap) (nowDay : ℤ)
    (nowMin : ℚ) :
    (updateGoals goals snap nowDay nowMin).1 = goals.map (goalStep snap nowDay nowMin) ∧
    (updateGoals goals snap nowDay nowMin).2 =
      ((goals.filter (fun g => g.status == GoalStatus.pending && g.condition snap)).map
        Goal.reward).sum ∧
    ∀ g : Goal,
      (g.status ≠ GoalStatus.pending → goalStep snap nowDay nowMin g = g) ∧
      (g.status = GoalStatus.pending → g.condition snap = true →
        goalStep snap nowDay nowMin g = { g with status := GoalStatus.completed }) ∧
      (g.status = GoalStatus.pending → g.condition snap = false →
        isPast g.deadlineDay g.deadlineMin nowDay nowMin = true →
        goalStep snap nowDay nowMin g = { g with status := GoalStatus.failed }) ∧
      (g.status = GoalStatus.pending → g.condition snap = false →
        isPast g.deadlineDay g.deadlineMin nowDay nowMin = false →
        goalStep snap nowDay nowMin g = g) ∧
      ((goalStep snap nowDay nowMin g).status ≠ g.status →
        g.status = GoalStatus.pending ∧
          ((goalStep snap nowDay nowMin g).status = GoalStatus.completed ∨
           (goalStep snap nowDay nowMin g).status = GoalStatus.failed)) := by
  refine ⟨rfl, rfl, ?_⟩
  intro g
  refine ⟨?_, ?_, ?_, ?_, ?_⟩
  · intro h
    unfold goalStep
    rw [if_pos h]
  · intro h1 h2
    unfold goalStep
    rw [if_neg (not_not_intro h1), if_pos h2]
  · intro h1 h2 h3
    unfold goalStep
    rw [if_neg (not_not_intro h1), if_neg (by simp [h2]), if_pos h3]
  · intro h1 h2 h3
    unfold goalStep
    rw [if_neg (not_not_intro h1), if_neg (by simp [h2]), if_neg (by simp [h3])]
  · intro hne
    unfold goalStep at hne ⊢
    by_cases h1 : g.status ≠ GoalStatus.pending
    · rw [if_pos h1] at hne
      exact absurd rfl hne
    · refine ⟨not_not.mp h1, ?_⟩
      rw [if_neg h1] at hne ⊢
      by_cases h2 : g.condition snap = true
      · rw [if_pos h2]
        exact Or.inl rfl
      · rw [if_neg h2] at hne ⊢
        by_cases h3 : isPast g.deadlineDay g.deadlineMin nowDay nowMin = true
        · rw [if_pos h3]
          exact Or.inr rfl
        · rw [if_neg h3] at hne
          exact absurd rfl hne

/-- Witness for C5: one pending goal with a true condition completes and
its 150 reward is awarded. -/
theorem c5_goal_transitions_witness :
    (updateGoals [c5Goal] c5Snap 1 0).1 = [{ c5Goal with status := GoalStatus.completed }] ∧
    (updateGoals [c5Goal] c5Snap 1 0).2 = 150 := by
  obtain ⟨h1, h2, h3⟩ := c5_goal_transitions [c5Goal] c5Snap 1 0
  have h4 := (h3 c5Goal).2.1 rfl rfl
  constructor
  · rw [h1, List.map_cons, List.map_nil, h4]
  · rw [h2]
    rfl

/-- C8: the fuel step maps fuelTick over the items; fuelTick leaves
non-generators and off generators unchanged; a running generator's new
fuel is its old fuel minus dt times (GEN_BASE_FUEL_DRAIN plus its
attributed load times GEN_FUEL_PER_POWER), floored at zero, every other
field except the on flag is unchanged, the new fuel is never negative,
and a generator whose new fuel is zero has its on flag set to false in
the same update. -/
theorem c8_fuel_drain (items : List PlacedItem) (loads : List (String × ℤ))
    (dt : ℚ) (hdt : 0 < dt) :
    fuelStep items loads dt = items.map (fuelTick loads dt) ∧
    ∀ i : PlacedItem,
      ((i.defKey ≠ ItemKey.genny ∨ isOn i = false) → fuelTick loads dt i = i) ∧
      (i.defKey = ItemKey.genny → isOn i = true →
        (fuelTick loads dt i).fuel =
          some (max 0 (i.fuel.getD 100 -
            dt * (GEN_BASE_FUEL_DRAIN +
              (((recGet loads i.id).getD 0 : ℤ) : ℚ) * GEN_FUEL_PER_POWER))) ∧
        (∀ q : ℚ, (fuelTick loads dt i).fuel = some q →
          0 ≤ q ∧ (q = 0 → (fuelTick loads dt i).onFlag = some false)) ∧
        (fuelTick loads dt i).id = i.id ∧
        (fuelTick loads dt i).defKey = i.defKey ∧
        (fuelTick loads dt i).x = i.x ∧
        (fuelTick loads dt i).y = i.y ∧
        (fuelTick loads dt i).rot = i.rot) := by
  refine ⟨rfl, ?_⟩
  intro i
  constructor
  · intro h
    unfold fuelTick
    rw [if_pos h]
  · intro h1 h2
    have hcond : ¬ (i.defKey ≠ ItemKey.genny ∨ isOn i = false) := by
      rw [h1, h2]
      simp
    have hstep : fuelTick loads dt i =
        { i with
          fuel := some (max 0 (i.fuel.getD 100 -
            dt * (GEN_BASE_FUEL_DRAIN +
              (((recGet loads i.id).getD 0 : ℤ) : ℚ) * GEN_FUEL_PER_POWER))),
          onFlag := some (decide (0 < max 0 (i.fuel.getD 100 -
            dt * (GEN_BASE_FUEL_DRAIN +
              (((recGet loads i.id).getD 0 : ℤ) : ℚ) * GEN_FUEL_PER_POWER)))) } := by
      simp only [fuelTick]
      rw [if_neg hcond]
    rw [hstep]
    refine ⟨rfl, ?_, rfl, rfl, rfl, rfl, rfl⟩
    intro q hq
    have hq2 : max 0 (i.fuel.getD 100 -
        dt * (GEN_BASE_FUEL_DRAIN +
          (((recGet loads i.id).getD 0 : ℤ) : ℚ) * GEN_FUEL_PER_POWER)) = q := by
      injection hq
    constructor
    · rw [← hq2]
      exact le_max_left 0 _
    · intro hq0
      rw [hq2, hq0]
      norm_num

/-- Witness for C8: the running generator with fuel 10 and load 2 drains
to fuel 8 after one second. -/
theorem c8_fuel_drain_witness :
    (fuelTick c8Loads 1 c8Gen).fuel = some 8 ∧
    ∀ q : ℚ, (fuelTick c8Loads 1 c8Gen).fuel = some q → 0 ≤ q := by
  have h := ((c8_fuel_drain [c8Gen] c8Loads 1 (by norm_num)).2 c8Gen).2 rfl rfl
  have hr : recGet c8Loads "G" = some 2 := rfl
  constructor
  · rw [h.1]
    show some (max 0 ((some (10:ℚ)).getD 100 -
      1 * (GEN_BASE_FUEL_DRAIN + (((recGet c8Loads "G").getD 0 : ℤ) : ℚ) * GEN_FUEL_PER_POWER))) =
      some 8
    rw [hr]
    norm_num [GEN_BASE_FUEL_DRAIN, GEN_FUEL_PER_POWER]
  · intro q hq
    exact (h.2.1 q hq).1

end FestivalTycoon
